import Mathlib

/-!
# tp_fancontrol: the fan state machine and the trend estimator

A shallow embedding of `src/tp_fancontrol.c` (the transition functions, the
table `trans`, `sys_fan`, `sys_initsensor` and `monitor_event`) together with
the properties of the specification that concern them.

Conventions of the embedding.

* C `int` values are `Int`.  The `int` operations of the regression loop
  (`n * n`, `n * current->temp[j]` and `n++`) are wrapped to 32 bits by
  `wrap32`.
* C `double` values are `Dbl`: an exact rational, or one of the IEEE-754
  special values `+inf`, `-inf`, `NaN`.  Arithmetic on finite values is exact
  (rounding is not modelled); the special values follow the IEEE-754 rules
  (`0/0 = NaN`, comparisons with `NaN` are false, ...).  Zero carries no sign;
  a nonzero finite value divided by zero gives the infinity of the sign of the
  dividend, as for the divisor `+0.0`.  (Without `int` overflow the only
  division by zero `monitor_event` performs is `0/0`, see `transArgs_short` and
  `spec_denominator_pos`.)
* The files behind `sys_sensor` and `sys_fan` are inputs of the model: the
  value `sys_sensor` returns for each sensor, and whether `fopen` on the fan
  file succeeds.
-/

namespace TpFancontrol

/-! ## Doubles -/

/-- A C `double`: an exact rational or an IEEE-754 special value. -/
inductive Dbl where
  | fin (q : ℚ)
  | pinf
  | ninf
  | nan
  deriving DecidableEq

namespace Dbl

/-- Conversion `int -> double` (exact). -/
def ofInt (i : Int) : Dbl := fin (i : ℚ)

/-- Unary minus. -/
def neg : Dbl → Dbl
  | fin q => fin (-q)
  | pinf => ninf
  | ninf => pinf
  | nan => nan

/-- Addition of doubles. -/
def add : Dbl → Dbl → Dbl
  | nan, _ => nan
  | _, nan => nan
  | pinf, ninf => nan
  | ninf, pinf => nan
  | pinf, _ => pinf
  | _, pinf => pinf
  | ninf, _ => ninf
  | _, ninf => ninf
  | fin a, fin b => fin (a + b)

/-- Subtraction of doubles. -/
def sub (a b : Dbl) : Dbl := add a (neg b)

/-- The infinity of the sign of a nonzero rational (`NaN` for zero). -/
def infOfSign (q : ℚ) : Dbl :=
  if 0 < q then pinf else if q < 0 then ninf else nan

/-- Multiplication of doubles. -/
def mul : Dbl → Dbl → Dbl
  | nan, _ => nan
  | _, nan => nan
  | pinf, pinf => pinf
  | pinf, ninf => ninf
  | ninf, pinf => ninf
  | ninf, ninf => pinf
  | pinf, fin q => infOfSign q
  | ninf, fin q => infOfSign (-q)
  | fin q, pinf => infOfSign q
  | fin q, ninf => infOfSign (-q)
  | fin a, fin b => fin (a * b)

/-- Division of doubles. -/
def div : Dbl → Dbl → Dbl
  | nan, _ => nan
  | _, nan => nan
  | pinf, pinf => nan
  | pinf, ninf => nan
  | ninf, pinf => nan
  | ninf, ninf => nan
  | fin _, pinf => fin 0
  | fin _, ninf => fin 0
  | pinf, fin q => if q < 0 then ninf else pinf
  | ninf, fin q => if q < 0 then pinf else ninf
  | fin a, fin b => if b = 0 then infOfSign a else fin (a / b)

/-- The comparison `a < b` of doubles (false when an operand is `NaN`). -/
def lt : Dbl → Dbl → Bool
  | nan, _ => false
  | _, nan => false
  | _, ninf => false
  | pinf, _ => false
  | ninf, _ => true
  | _, pinf => true
  | fin a, fin b => decide (a < b)

/-- The comparison `a > b` of doubles. -/
def gt (a b : Dbl) : Bool := lt b a

/-- The comparison `a <= b` of doubles (false when an operand is `NaN`). -/
def le : Dbl → Dbl → Bool
  | nan, _ => false
  | _, nan => false
  | ninf, _ => true
  | _, pinf => true
  | _, ninf => false
  | pinf, _ => false
  | fin a, fin b => decide (a ≤ b)

/-- The comparison `a >= b` of doubles. -/
def ge (a b : Dbl) : Bool := le b a

end Dbl

/-! ## States, events and the transition table -/

/-- The enumerator `FAN_ANY = 8999` of `enum state_e`. -/
def FAN_ANY : Int := 8999
/-- The enumerator `FAN_AUTO`. -/
def FAN_AUTO : Int := 9000
/-- The enumerator `FAN_HIGHSPEED`. -/
def FAN_HIGHSPEED : Int := 9001
/-- The enumerator `FAN_FULLSPEED`. -/
def FAN_FULLSPEED : Int := 9002
/-- The enumerator `EV_START`. -/
def EV_START : Int := 9003
/-- The enumerator `EV_TIMER`. -/
def EV_TIMER : Int := 9004
/-- The enumerator `EV_STOP`. -/
def EV_STOP : Int := 9005

/-- The function `_clear`. -/
def _clear (_temp _temp_out _min _max : Dbl) : Int := FAN_AUTO

/-- The function `_auto`. -/
def _auto (temp temp_out min max : Dbl) : Int :=
  if Dbl.lt temp_out min then FAN_AUTO
  else if Dbl.gt temp (Dbl.sub max (Dbl.fin 20)) then FAN_HIGHSPEED
  else FAN_AUTO

/-- The function `_highspeed`. -/
def _highspeed (temp temp_out min max : Dbl) : Int :=
  if Dbl.lt temp_out min then FAN_AUTO
  else if Dbl.gt temp (Dbl.sub max (Dbl.fin 10)) then FAN_FULLSPEED
  else FAN_HIGHSPEED

/-- The function `_fullspeed`. -/
def _fullspeed (_temp temp_out min _max : Dbl) : Int :=
  if Dbl.lt temp_out min then FAN_AUTO
  else FAN_FULLSPEED

/-- The record `struct transition_s`. -/
structure transition_s where
  st : Int
  ev : Int
  fn : Dbl → Dbl → Dbl → Dbl → Int

/-- The table `trans`. -/
def trans : List transition_s :=
  [ ⟨FAN_ANY, EV_START, _clear⟩,
    ⟨FAN_AUTO, EV_TIMER, _auto⟩,
    ⟨FAN_HIGHSPEED, EV_TIMER, _highspeed⟩,
    ⟨FAN_FULLSPEED, EV_TIMER, _fullspeed⟩,
    ⟨FAN_ANY, EV_STOP, _clear⟩ ]

/-! ## The fan actuator -/

/-- The command string selected by the `switch` of `sys_fan`. -/
def fanCommand (speed : Int) : Option String :=
  if speed = FAN_AUTO then some "level auto"
  else if speed = FAN_HIGHSPEED then some "level 7"
  else if speed = FAN_FULLSPEED then some "level full-speed"
  else none

/-- The function `sys_fan`: given whether `fopen` on the fan file succeeds,
the return value and the strings written to the fan file. -/
def sys_fan (fopenOk : Bool) (speed : Int) : Int × List String :=
  match fanCommand speed with
  | some s => if fopenOk then (0, [s]) else (1, [])
  | none => (0, [])

/-- What the transition scan of `monitor_event` leaves behind: the fan speed,
the speeds `sys_fan` was called with (in order), the strings written to the fan
file and the lines printed for failed calls. -/
structure FanOutcome where
  speed : Int
  calls : List Int
  written : List String
  errors : List String
  deriving DecidableEq, Repr

/-- The row test of the scan: `speed == row.st || FAN_ANY == row.st`, then
`event == row.ev`. -/
def eligible (speed event : Int) (row : transition_s) : Bool :=
  (decide (speed = row.st) || decide (FAN_ANY = row.st)) && decide (event = row.ev)

/-- The body run for the matching row: the new speed is stored, and `sys_fan`
is called when it differs from the `st` field of the row. -/
def applyRow (fopenOk : Bool) (row : transition_s) (b y min max : Dbl) : FanOutcome :=
  let next := row.fn b y min max
  if next ≠ row.st then
    let r := sys_fan fopenOk next
    { speed := next, calls := [next], written := r.2,
      errors := if r.1 ≠ 0 then ["fan: failed to change speed\n"] else [] }
  else
    { speed := next, calls := [], written := [], errors := [] }

/-- The transition loop of `monitor_event` over a table: rows are scanned in
order, the first eligible row is applied and ends the scan. -/
def scan (fopenOk : Bool) (speed event : Int) (b y min max : Dbl) :
    List transition_s → FanOutcome
  | [] => { speed := speed, calls := [], written := [], errors := [] }
  | row :: rest =>
    if eligible speed event row then applyRow fopenOk row b y min max
    else scan fopenOk speed event b y min max rest

/-! ## Sensors and `monitor_event` -/

/-- The constant `__DATALEN`. -/
def __DATALEN : Nat := 32

/-- The sensor record `struct sensor_s` (the two path strings are left out). -/
structure sensor_s where
  temp : List Int
  temp_max : Int
  temp_min : Int
  deriving DecidableEq, Repr

/-- The function `sys_initsensor`: `inputOk` says whether `stat` on the input
file succeeds and finds a regular file, `maxRead` is what `fscanf` gets from
the maximum file (`none` when the file cannot be opened or holds no number).
The result is `none` where the function returns 1. -/
def sys_initsensor (inputOk : Bool) (maxRead : Option Int) : Option sensor_s :=
  if inputOk = false then none
  else
    let temp_max := maxRead.getD 0
    if temp_max = 0 then none
    else some { temp := List.replicate __DATALEN 0, temp_max := temp_max, temp_min := temp_max }

/-- Wrap an integer to the range of a 32-bit `int`. -/
def wrap32 (x : Int) : Int := (x + 2147483648) % 4294967296 - 2147483648

/-- The loop `for (j = __DATALEN - 1; j > 0; --j) temp[j] = temp[j-1];`,
started at `j`. -/
def shiftLoop : Nat → List Int → List Int
  | 0, temp => temp
  | j + 1, temp => shiftLoop j (temp.set (j + 1) (temp.getD j 0))

/-- The per-sensor update at the head of the sensor loop: shift the history,
store the new reading at index 0, lower `temp_min` to it when it is smaller. -/
def updateSensor (s : sensor_s) (reading : Int) : sensor_s :=
  let temp := (shiftLoop (__DATALEN - 1) s.temp).set 0 reading
  let temp_min := if s.temp_min > temp.getD 0 0 then temp.getD 0 0 else s.temp_min
  { s with temp := temp, temp_min := temp_min }

/-- The locals of `monitor_event` that the sensor loop accumulates. -/
structure Locals where
  n : Int
  sx : Dbl
  sxx : Dbl
  sy : Dbl
  sxy : Dbl
  min : Dbl
  max : Dbl
  deriving DecidableEq

/-- The initial values: `n = 0`, the sums `0`, `max = min = 100000.0`. -/
def Locals.init : Locals :=
  { n := 0, sx := Dbl.fin 0, sxx := Dbl.fin 0, sy := Dbl.fin 0, sxy := Dbl.fin 0,
    min := Dbl.fin 100000, max := Dbl.fin 100000 }

/-- One pass of the body of the regression loop for the sample `t`. -/
def regStep (a : Locals) (t : Int) : Locals :=
  { a with
    sx := Dbl.add a.sx (Dbl.ofInt a.n)
    sxx := Dbl.add a.sxx (Dbl.ofInt (wrap32 (a.n * a.n)))
    sy := Dbl.add a.sy (Dbl.ofInt t)
    sxy := Dbl.add a.sxy (Dbl.ofInt (wrap32 (a.n * t)))
    n := wrap32 (a.n + 1) }

/-- The loop `for (j = 0; j < __DATALEN; j++)` over one history, with `fuel`
iterations left at index `j`; a zero entry breaks out. -/
def regLoop (temp : List Int) : Nat → Nat → Locals → Locals
  | 0, _, a => a
  | fuel + 1, j, a =>
    if temp.getD j 0 = 0 then a
    else regLoop temp fuel (j + 1) (regStep a (temp.getD j 0))

/-- The range update `min = temp_min < min ? temp_min : min` and the same for
`max` with `temp_max`. -/
def rangeStep (a : Locals) (s : sensor_s) : Locals :=
  { a with
    min := if Dbl.lt (Dbl.ofInt s.temp_min) a.min then Dbl.ofInt s.temp_min else a.min
    max := if Dbl.lt (Dbl.ofInt s.temp_max) a.max then Dbl.ofInt s.temp_max else a.max }

/-- The sensor loop `for (i = 0; i < gact.num_sensors; i++)`, from sensor
index `i` on; `read i` is what `sys_sensor` returns for sensor `i`. -/
def sensorLoop (read : Nat → Int) : Nat → List sensor_s → Locals → List sensor_s × Locals
  | _, [], a => ([], a)
  | i, s :: rest, a =>
    let current := updateSensor s (read i)
    let a1 := rangeStep a current
    let a2 := regLoop current.temp __DATALEN 0 a1
    let r := sensorLoop read (i + 1) rest a2
    (current :: r.1, r.2)

/-- The slope `m = (sxy - ((sx * sy) / n)) / (sxx - ((sx * sx) / n))`. -/
def slope (a : Locals) : Dbl :=
  Dbl.div (Dbl.sub a.sxy (Dbl.div (Dbl.mul a.sx a.sy) (Dbl.ofInt a.n)))
    (Dbl.sub a.sxx (Dbl.div (Dbl.mul a.sx a.sx) (Dbl.ofInt a.n)))

/-- The intercept `b = (sy - (m * sx)) / n`. -/
def intercept (a : Locals) : Dbl :=
  Dbl.div (Dbl.sub a.sy (Dbl.mul (slope a) a.sx)) (Dbl.ofInt a.n)

/-- The predicted value `y = (m * (n * -2.0)) + b`. -/
def predicted (a : Locals) : Dbl :=
  Dbl.add (Dbl.mul (slope a) (Dbl.mul (Dbl.ofInt a.n) (Dbl.fin (-2)))) (intercept a)

/-- The four arguments handed to the transition function: `b` and `max` after
`b /= 1000.0` and `max /= 1000.0`, `y` and `min` as they are. -/
structure TransArgs where
  temp : Dbl
  temp_out : Dbl
  min : Dbl
  max : Dbl
  deriving DecidableEq

/-- The arguments of the transition call computed from the locals. -/
def transArgs (a : Locals) : TransArgs :=
  { temp := Dbl.div (intercept a) (Dbl.fin 1000)
    temp_out := predicted a
    min := a.min
    max := Dbl.div a.max (Dbl.fin 1000) }

/-- The part of `gact` that `monitor_event` uses: the fan speed and the sensors. -/
structure globalstate_t where
  speed : Int
  sensors : List sensor_s
  deriving DecidableEq, Repr

/-- The result of one call of `monitor_event`: the new global state and what
was done to the fan. -/
structure EventResult where
  gact : globalstate_t
  calls : List Int
  written : List String
  errors : List String
  deriving DecidableEq, Repr

/-- The locals after the sensor loop of one event. -/
def localsOf (read : Nat → Int) (sensors : List sensor_s) : Locals :=
  (sensorLoop read 0 sensors Locals.init).2

/-- The sensors after the sensor loop of one event. -/
def sensorsOf (read : Nat → Int) (sensors : List sensor_s) : List sensor_s :=
  (sensorLoop read 0 sensors Locals.init).1

/-- The function `monitor_event`, over an arbitrary transition table. -/
def monitor_event_with (table : List transition_s) (read : Nat → Int) (fopenOk : Bool)
    (g : globalstate_t) (event : Int) : EventResult :=
  let r := sensorLoop read 0 g.sensors Locals.init
  let args := transArgs r.2
  let o := scan fopenOk g.speed event args.temp args.temp_out args.min args.max table
  { gact := { speed := o.speed, sensors := r.1 },
    calls := o.calls, written := o.written, errors := o.errors }

/-- The function `monitor_event`. -/
def monitor_event (read : Nat → Int) (fopenOk : Bool) (g : globalstate_t) (event : Int) :
    EventResult :=
  monitor_event_with trans read fopenOk g event

/-- The timer part of the main loop: one `monitor_event (EV_TIMER)` per
entry, each entry giving what `sys_sensor` and `fopen` do on that tick. -/
def timerTicks (g : globalstate_t) : List ((Nat → Int) × Bool) → globalstate_t
  | [] => g
  | w :: ws => timerTicks (monitor_event w.1 w.2 g EV_TIMER).gact ws

/-- Every tick of a run of timer ticks sees a predicted value `>=` the minimum
and a smoothed current value `<=` the maximum less 20. -/
def SteadyBelow (g : globalstate_t) : List ((Nat → Int) × Bool) → Prop
  | [] => True
  | w :: ws =>
    let a := transArgs (localsOf w.1 g.sensors)
    (Dbl.ge a.temp_out a.min = true ∧ Dbl.le a.temp (Dbl.sub a.max (Dbl.fin 20)) = true) ∧
      SteadyBelow (monitor_event w.1 w.2 g EV_TIMER).gact ws

/-- The end-to-end scenario: a sensor as `sys_initsensor` makes it from a
maximum file holding 90000. -/
def scenarioSensor : sensor_s :=
  (sys_initsensor true (some 90000)).getD { temp := [], temp_max := 0, temp_min := 0 }

/-- The end-to-end scenario: the state after `monitor_init`, two sensors A and B
and the fan speed `FAN_ANY` set by `sys_initfan`. -/
def scenarioInit : globalstate_t :=
  { speed := FAN_ANY, sensors := [scenarioSensor, scenarioSensor] }

/-- The end-to-end scenario: what `sys_sensor` returns on event `k` (event 0 is
`EV_START`): sensor A reads `40000 + 1000 * k`, sensor B reads 35000. -/
def scenarioRead (k : Nat) : Nat → Int :=
  fun i => if i = 0 then 40000 + 1000 * (k : Int) else 35000

/-- The end-to-end scenario: the state after `EV_START` and `k` timer ticks. -/
def scenarioRun : Nat → globalstate_t
  | 0 => (monitor_event (scenarioRead 0) true scenarioInit EV_START).gact
  | k + 1 => (monitor_event (scenarioRead (k + 1)) true (scenarioRun k) EV_TIMER).gact

/-- The end-to-end scenario: the smoothed current value `b / 1000` handed to the
transition function on timer tick `k + 1`. -/
def scenarioCurrent (k : Nat) : Dbl :=
  (transArgs (localsOf (scenarioRead (k + 1)) (scenarioRun k).sensors)).temp

/-- One call of `monitor_event`: the event, what `sys_sensor` returns for each
sensor during it, and whether `fopen` on the fan file succeeds. -/
structure Event where
  event : Int
  read : Nat → Int
  fopenOk : Bool

/-- A sequence of calls of `monitor_event`, oldest first. -/
def runEvents (g : globalstate_t) : List Event → globalstate_t
  | [] => g
  | e :: es => runEvents (monitor_event e.read e.fopenOk g e.event).gact es

/-- The readings sensor `i` takes over a sequence of events, oldest first. -/
def readingsOf (evs : List Event) (i : Nat) : List Int :=
  evs.map (fun e => e.read i)

/-- The end-to-end scenario: the state reached after `EV_START` and `k` timer
ticks while the fan speed is `speed`, in closed form: entry `j` of the history
of sensor A is `40000 + 1000 * (k - j)` and that of sensor B is 35000 for
`j <= k`, the other entries are 0. -/
def scenarioState (k : Nat) (speed : Int) : globalstate_t :=
  { speed := speed
    sensors :=
      [ { temp := (List.range __DATALEN).map
            (fun j => if j ≤ k then 40000 + 1000 * ((k : Int) - (j : Int)) else 0)
          temp_max := 90000
          temp_min := 40000 },
        { temp := (List.range __DATALEN).map (fun j => if j ≤ k then 35000 else 0)
          temp_max := 90000
          temp_min := 35000 } ] }

/-! ## The trend as the specification words it -/

/-- The valid samples of one history: the entries from index 0 up to, not
including, the first zero entry (among the `__DATALEN` entries). -/
def validSamples (temp : List Int) : List Int :=
  (temp.take __DATALEN).takeWhile (fun t => t ≠ 0)

/-- The pooled samples: the valid samples of each sensor, sensor after sensor in
list order. -/
def pooledSamples (sensors : List sensor_s) : List Int :=
  sensors.flatMap (fun s => validSamples s.temp)

/-- The sum of `f x y` over the samples `y` numbered `x = k, k + 1, ...` by one
running counter. -/
def sumFrom (f : ℚ → ℚ → ℚ) (k : Nat) (P : List Int) : ℚ :=
  ((P.enumFrom k).map (fun p => f (p.1 : ℚ) (p.2 : ℚ))).sum

/-- The sum `Sx` of the sample numbers `x = 0, 1, ..., n - 1`. -/
def specSx (P : List Int) : ℚ := sumFrom (fun x _ => x) 0 P

/-- The sum `Sxx` of the squares of the sample numbers. -/
def specSxx (P : List Int) : ℚ := sumFrom (fun x _ => x * x) 0 P

/-- The sum `Sy` of the readings. -/
def specSy (P : List Int) : ℚ := sumFrom (fun _ y => y) 0 P

/-- The sum `Sxy` of the products sample number times reading. -/
def specSxy (P : List Int) : ℚ := sumFrom (fun x y => x * y) 0 P

/-- The slope `m = (Sxy - Sx*Sy/n) / (Sxx - Sx*Sx/n)`. -/
def specSlope (P : List Int) : ℚ :=
  (specSxy P - specSx P * specSy P / (P.length : ℚ))
    / (specSxx P - specSx P * specSx P / (P.length : ℚ))

/-- The intercept `b = (Sy - m*Sx)/n`. -/
def specIntercept (P : List Int) : ℚ :=
  (specSy P - specSlope P * specSx P) / (P.length : ℚ)

/-- The predicted value `y = m*(-2n) + b`. -/
def specPredicted (P : List Int) : ℚ :=
  specSlope P * (-2 * (P.length : ℚ)) + specIntercept P

/-- The value fits a 32-bit `int`. -/
def inInt32 (x : Int) : Bool := decide (-2147483648 ≤ x) && decide (x ≤ 2147483647)

/-- The `int` products `n * n` and `n * reading` of the regression loop stay in
range for the samples numbered from `k` on. -/
def noOverflowFrom : Nat → List Int → Bool
  | _, [] => true
  | k, t :: P => inInt32 ((k : Int) * (k : Int)) && inInt32 ((k : Int) * t) && noOverflowFrom (k + 1) P

/-- The `int` products `n * n` and `n * reading` do not overflow on the pooled
samples. -/
def noOverflow (P : List Int) : Bool := noOverflowFrom 0 P

/-- The locals of the regression hold the count `k` and the finite sums. -/
def Sums (a : Locals) (k : Nat) (sx sxx sy sxy : ℚ) : Prop :=
  a.n = (k : Int) ∧ a.sx = Dbl.fin sx ∧ a.sxx = Dbl.fin sxx ∧ a.sy = Dbl.fin sy
    ∧ a.sxy = Dbl.fin sxy

/-! # Properties -/

/-! ## The state machine -/

theorem Dbl.not_lt_of_ge {a b : Dbl} (h : Dbl.ge a b = true) : Dbl.lt a b = false := by
  cases a <;> cases b <;> simp_all [Dbl.ge, Dbl.le, Dbl.lt]

theorem Dbl.not_gt_of_le {a b : Dbl} (h : Dbl.le a b = true) : Dbl.gt a b = false := by
  cases a <;> cases b <;> simp_all [Dbl.gt, Dbl.le, Dbl.lt]

theorem scan_trans_timer_auto (ok : Bool) (b y mn mx : Dbl) :
    scan ok FAN_AUTO EV_TIMER b y mn mx trans
      = applyRow ok ⟨FAN_AUTO, EV_TIMER, _auto⟩ b y mn mx := by
  simp [scan, trans, eligible, FAN_ANY, FAN_AUTO, EV_START, EV_TIMER]

theorem scan_trans_timer_highspeed (ok : Bool) (b y mn mx : Dbl) :
    scan ok FAN_HIGHSPEED EV_TIMER b y mn mx trans
      = applyRow ok ⟨FAN_HIGHSPEED, EV_TIMER, _highspeed⟩ b y mn mx := by
  simp [scan, trans, eligible, FAN_ANY, FAN_AUTO, FAN_HIGHSPEED, EV_START, EV_TIMER]

theorem scan_trans_timer_fullspeed (ok : Bool) (b y mn mx : Dbl) :
    scan ok FAN_FULLSPEED EV_TIMER b y mn mx trans
      = applyRow ok ⟨FAN_FULLSPEED, EV_TIMER, _fullspeed⟩ b y mn mx := by
  simp [scan, trans, eligible, FAN_ANY, FAN_AUTO, FAN_HIGHSPEED, FAN_FULLSPEED, EV_START,
    EV_TIMER]

theorem scan_trans_start (ok : Bool) (speed : Int) (b y mn mx : Dbl) :
    scan ok speed EV_START b y mn mx trans = applyRow ok ⟨FAN_ANY, EV_START, _clear⟩ b y mn mx := by
  simp [scan, trans, eligible]

theorem scan_trans_stop (ok : Bool) (speed : Int) (b y mn mx : Dbl) :
    scan ok speed EV_STOP b y mn mx trans = applyRow ok ⟨FAN_ANY, EV_STOP, _clear⟩ b y mn mx := by
  simp [scan, trans, eligible, EV_START, EV_TIMER, EV_STOP]

theorem scan_trans_timer_other (ok : Bool) (speed : Int) (b y mn mx : Dbl)
    (h1 : speed ≠ FAN_AUTO) (h2 : speed ≠ FAN_HIGHSPEED) (h3 : speed ≠ FAN_FULLSPEED) :
    scan ok speed EV_TIMER b y mn mx trans
      = { speed := speed, calls := [], written := [], errors := [] } := by
  have e1 : FAN_ANY ≠ FAN_AUTO := by decide
  have e2 : FAN_ANY ≠ FAN_HIGHSPEED := by decide
  have e3 : FAN_ANY ≠ FAN_FULLSPEED := by decide
  simp [scan, trans, eligible, EV_START, EV_TIMER, EV_STOP, h1, h2, h3, e1, e2, e3]

theorem applyRow_speed (ok : Bool) (row : transition_s) (b y mn mx : Dbl) :
    (applyRow ok row b y mn mx).speed = row.fn b y mn mx := by
  simp only [applyRow]
  split <;> rfl

theorem monitor_event_speed (read : Nat → Int) (ok : Bool) (g : globalstate_t) (event : Int) :
    (monitor_event read ok g event).gact.speed
      = (scan ok g.speed event (transArgs (localsOf read g.sensors)).temp
          (transArgs (localsOf read g.sensors)).temp_out (transArgs (localsOf read g.sensors)).min
          (transArgs (localsOf read g.sensors)).max trans).speed := rfl

theorem monitor_event_calls (read : Nat → Int) (ok : Bool) (g : globalstate_t) (event : Int) :
    (monitor_event read ok g event).calls
      = (scan ok g.speed event (transArgs (localsOf read g.sensors)).temp
          (transArgs (localsOf read g.sensors)).temp_out (transArgs (localsOf read g.sensors)).min
          (transArgs (localsOf read g.sensors)).max trans).calls := rfl

theorem monitor_event_written (read : Nat → Int) (ok : Bool) (g : globalstate_t) (event : Int) :
    (monitor_event read ok g event).written
      = (scan ok g.speed event (transArgs (localsOf read g.sensors)).temp
          (transArgs (localsOf read g.sensors)).temp_out (transArgs (localsOf read g.sensors)).min
          (transArgs (localsOf read g.sensors)).max trans).written := rfl

theorem monitor_event_sensors (read : Nat → Int) (ok : Bool) (g : globalstate_t) (event : Int) :
    (monitor_event read ok g event).gact.sensors = sensorsOf read g.sensors := rfl

theorem timerTicks_steady (ticks : List ((Nat → Int) × Bool)) :
    ∀ g : globalstate_t, g.speed = FAN_AUTO → SteadyBelow g ticks →
      (timerTicks g ticks).speed = FAN_AUTO := by
  induction ticks with
  | nil => intro g hg _; exact hg
  | cons w ws ih =>
    intro g hg hs
    obtain ⟨⟨h1, h2⟩, hrest⟩ := hs
    apply ih _ _ hrest
    rw [monitor_event_speed, hg, scan_trans_timer_auto, applyRow_speed]
    simp [_auto, Dbl.not_lt_of_ge h1, Dbl.not_gt_of_le h2]

/-- C1: on a TIMER event the scan of the table `trans` gives, from AUTO, HIGHSPEED
and FULLSPEED, exactly the next state of the transition table of the
specification, for all four arguments; a predicted value below the minimum gives
AUTO from each of the three states; and a run of timer ticks from AUTO on which
predicted >= globalMin and current <= globalMax - 20 hold at every tick ends in
AUTO. -/
theorem C1_timer_transition_table (ok : Bool) (temp temp_out min max : Dbl) :
    (scan ok FAN_AUTO EV_TIMER temp temp_out min max trans).speed
        = (if Dbl.lt temp_out min then FAN_AUTO
           else if Dbl.gt temp (Dbl.sub max (Dbl.fin 20)) then FAN_HIGHSPEED
           else FAN_AUTO)
    ∧ (scan ok FAN_HIGHSPEED EV_TIMER temp temp_out min max trans).speed
        = (if Dbl.lt temp_out min then FAN_AUTO
           else if Dbl.gt temp (Dbl.sub max (Dbl.fin 10)) then FAN_FULLSPEED
           else FAN_HIGHSPEED)
    ∧ (scan ok FAN_FULLSPEED EV_TIMER temp temp_out min max trans).speed
        = (if Dbl.lt temp_out min then FAN_AUTO else FAN_FULLSPEED)
    ∧ (Dbl.lt temp_out min = true →
        ∀ speed ∈ [FAN_AUTO, FAN_HIGHSPEED, FAN_FULLSPEED],
          (scan ok speed EV_TIMER temp temp_out min max trans).speed = FAN_AUTO)
    ∧ (∀ (g : globalstate_t) (ticks : List ((Nat → Int) × Bool)),
        g.speed = FAN_AUTO → SteadyBelow g ticks → (timerTicks g ticks).speed = FAN_AUTO) := by
  refine ⟨?_, ?_, ?_, ?_, ?_⟩
  · rw [scan_trans_timer_auto, applyRow_speed]; rfl
  · rw [scan_trans_timer_highspeed, applyRow_speed]; rfl
  · rw [scan_trans_timer_fullspeed, applyRow_speed]; rfl
  · intro h speed hs
    simp only [List.mem_cons, List.mem_singleton, List.not_mem_nil, or_false] at hs
    rcases hs with rfl | rfl | rfl
    · rw [scan_trans_timer_auto, applyRow_speed]; simp [_auto, h]
    · rw [scan_trans_timer_highspeed, applyRow_speed]; simp [_highspeed, h]
    · rw [scan_trans_timer_fullspeed, applyRow_speed]; simp [_fullspeed, h]
  · intro g ticks hg hs
    exact timerTicks_steady ticks g hg hs

/-- C1, at concrete inputs: from FULLSPEED with predicted 30000 < 35000 the next
state is AUTO, and the first timer tick of the end-to-end scenario leaves AUTO. -/
theorem C1_timer_transition_table_witness :
    (scan true FAN_FULLSPEED EV_TIMER (Dbl.fin 95) (Dbl.fin 30000) (Dbl.fin 35000)
        (Dbl.fin 90) trans).speed = FAN_AUTO
    ∧ (timerTicks (scenarioRun 0) [(scenarioRead 1, true)]).speed = FAN_AUTO :=
  ⟨(C1_timer_transition_table true (Dbl.fin 95) (Dbl.fin 30000) (Dbl.fin 35000)
      (Dbl.fin 90)).2.2.2.1 (by decide!) FAN_FULLSPEED (by simp),
   (C1_timer_transition_table true (Dbl.fin 95) (Dbl.fin 30000) (Dbl.fin 35000)
      (Dbl.fin 90)).2.2.2.2 (scenarioRun 0) [(scenarioRead 1, true)] (by decide!)
      ⟨⟨by decide!, by decide!⟩, trivial⟩⟩

theorem applyRow_calls (ok : Bool) (row : transition_s) (b y mn mx : Dbl) :
    (applyRow ok row b y mn mx).calls
      = if row.fn b y mn mx ≠ row.st then [row.fn b y mn mx] else [] := by
  simp only [applyRow]
  split <;> rfl

theorem applyRow_written (ok : Bool) (row : transition_s) (b y mn mx : Dbl) :
    (applyRow ok row b y mn mx).written
      = if row.fn b y mn mx ≠ row.st then (sys_fan ok (row.fn b y mn mx)).2 else [] := by
  simp only [applyRow]
  split <;> rfl

theorem scan_perm (ok : Bool) (speed event : Int) (b y mn mx : Dbl) {l l' : List transition_s}
    (hp : l.Perm l') (hc : l.countP (eligible speed event) ≤ 1) :
    scan ok speed event b y mn mx l = scan ok speed event b y mn mx l' := by
  induction hp with
  | nil => rfl
  | cons x _ ih =>
    rename_i l₁ l₂
    simp only [scan]
    by_cases hx : eligible speed event x = true
    · simp [hx]
    · simp only [hx]
      apply ih
      simpa [List.countP_cons, hx] using hc
  | swap x y l =>
    simp only [scan]
    by_cases hx : eligible speed event x = true <;> by_cases hy : eligible speed event y = true
    · simp [List.countP_cons, hx, hy] at hc
    · simp [hx, hy]
    · simp [hx, hy]
    · simp [hx, hy]
  | trans h₁ _ ih₁ ih₂ =>
    rw [ih₁ hc]
    apply ih₂
    rw [← h₁.countP_eq]
    exact hc

theorem countP_eligible_trans (speed event : Int)
    (hs : speed ∈ [FAN_ANY, FAN_AUTO, FAN_HIGHSPEED, FAN_FULLSPEED])
    (he : event ∈ [EV_START, EV_TIMER, EV_STOP]) :
    trans.countP (eligible speed event) ≤ 1 := by
  simp only [List.mem_cons, List.mem_singleton, List.not_mem_nil, or_false] at hs he
  rcases hs with rfl | rfl | rfl | rfl <;> rcases he with rfl | rfl | rfl <;> decide

/-- C2 fails as stated: in state AUTO a STOP event gives the next state AUTO,
equal to the current state, and `sys_fan` is called all the same and writes
"level auto". -/
theorem C2_unchanged_state_still_written :
    (monitor_event (fun _ => 40000) true
        { speed := FAN_AUTO, sensors := [scenarioSensor] } EV_STOP).gact.speed = FAN_AUTO
    ∧ (monitor_event (fun _ => 40000) true
        { speed := FAN_AUTO, sensors := [scenarioSensor] } EV_STOP).calls = [FAN_AUTO]
    ∧ (monitor_event (fun _ => 40000) true
        { speed := FAN_AUTO, sensors := [scenarioSensor] } EV_STOP).written = ["level auto"] := by
  decide!

/-- C2, amended: `monitor_event` calls `sys_fan` exactly when the next state
differs from the `st` field of the matched row.  On TIMER, in every state, that
is exactly when the next state differs from the current state, and the call is
then the only one and is made with the next state; on START and on STOP
`sys_fan` is called exactly once, with AUTO, in every state. -/
theorem C2_actuator_call_rule (read : Nat → Int) (ok : Bool) (g : globalstate_t) :
    ((monitor_event read ok g EV_TIMER).calls ≠ []
        ↔ (monitor_event read ok g EV_TIMER).gact.speed ≠ g.speed)
    ∧ ((monitor_event read ok g EV_TIMER).calls = []
        ∨ (monitor_event read ok g EV_TIMER).calls
            = [(monitor_event read ok g EV_TIMER).gact.speed])
    ∧ (monitor_event read ok g EV_START).calls = [FAN_AUTO]
    ∧ (monitor_event read ok g EV_START).gact.speed = FAN_AUTO
    ∧ (monitor_event read ok g EV_STOP).calls = [FAN_AUTO]
    ∧ (monitor_event read ok g EV_STOP).gact.speed = FAN_AUTO := by
  refine ⟨?_, ?_, ?_, ?_, ?_, ?_⟩
  · rw [monitor_event_calls, monitor_event_speed]
    by_cases h1 : g.speed = FAN_AUTO
    · rw [h1, scan_trans_timer_auto, applyRow_calls, applyRow_speed]
      split <;> simp_all
    by_cases h2 : g.speed = FAN_HIGHSPEED
    · rw [h2, scan_trans_timer_highspeed, applyRow_calls, applyRow_speed]
      split <;> simp_all
    by_cases h3 : g.speed = FAN_FULLSPEED
    · rw [h3, scan_trans_timer_fullspeed, applyRow_calls, applyRow_speed]
      split <;> simp_all
    rw [scan_trans_timer_other ok g.speed _ _ _ _ h1 h2 h3]
    simp
  · rw [monitor_event_calls, monitor_event_speed]
    by_cases h1 : g.speed = FAN_AUTO
    · rw [h1, scan_trans_timer_auto, applyRow_calls, applyRow_speed]
      split <;> simp_all
    by_cases h2 : g.speed = FAN_HIGHSPEED
    · rw [h2, scan_trans_timer_highspeed, applyRow_calls, applyRow_speed]
      split <;> simp_all
    by_cases h3 : g.speed = FAN_FULLSPEED
    · rw [h3, scan_trans_timer_fullspeed, applyRow_calls, applyRow_speed]
      split <;> simp_all
    rw [scan_trans_timer_other ok g.speed _ _ _ _ h1 h2 h3]
    simp
  · rw [monitor_event_calls, scan_trans_start, applyRow_calls]
    simp [_clear, FAN_AUTO, FAN_ANY]
  · rw [monitor_event_speed, scan_trans_start, applyRow_speed]
    rfl
  · rw [monitor_event_calls, scan_trans_stop, applyRow_calls]
    simp [_clear, FAN_AUTO, FAN_ANY]
  · rw [monitor_event_speed, scan_trans_stop, applyRow_speed]
    rfl

/-- C3: a STOP event from AUTO, HIGHSPEED or FULLSPEED, whatever the sensors
read, leaves the fan speed AUTO; when the prior state was not AUTO, `sys_fan` is
called exactly once, its command is "level auto", and that string is what is
written to the fan file when the file opens. -/
theorem C3_stop_yields_auto (read : Nat → Int) (ok : Bool) (g : globalstate_t)
    (_hs : g.speed ∈ [FAN_AUTO, FAN_HIGHSPEED, FAN_FULLSPEED]) :
    (monitor_event read ok g EV_STOP).gact.speed = FAN_AUTO
    ∧ (g.speed ≠ FAN_AUTO →
        (monitor_event read ok g EV_STOP).calls.length = 1
        ∧ (monitor_event read ok g EV_STOP).calls.map fanCommand = [some "level auto"]
        ∧ (monitor_event read ok g EV_STOP).written
            = if ok = true then ["level auto"] else []) := by
  refine ⟨?_, fun _ => ⟨?_, ?_, ?_⟩⟩
  · rw [monitor_event_speed, scan_trans_stop, applyRow_speed]
    rfl
  · rw [monitor_event_calls, scan_trans_stop, applyRow_calls]
    simp [_clear, FAN_AUTO, FAN_ANY]
  · rw [monitor_event_calls, scan_trans_stop, applyRow_calls]
    simp [_clear, FAN_AUTO, FAN_ANY, fanCommand]
  · rw [monitor_event_written, scan_trans_stop, applyRow_written]
    cases ok <;> simp [_clear, FAN_AUTO, FAN_ANY, sys_fan, fanCommand]

/-- C3, at a concrete input: STOP in state FULLSPEED with one sensor reading
40000 and a fan file that opens. -/
theorem C3_stop_yields_auto_witness :
    (monitor_event (fun _ => 40000) true
        { speed := FAN_FULLSPEED, sensors := [scenarioSensor] } EV_STOP).gact.speed = FAN_AUTO
    ∧ (monitor_event (fun _ => 40000) true
        { speed := FAN_FULLSPEED, sensors := [scenarioSensor] } EV_STOP).calls.length = 1
    ∧ (monitor_event (fun _ => 40000) true
        { speed := FAN_FULLSPEED, sensors := [scenarioSensor] } EV_STOP).calls.map fanCommand
          = [some "level auto"]
    ∧ (monitor_event (fun _ => 40000) true
        { speed := FAN_FULLSPEED, sensors := [scenarioSensor] } EV_STOP).written
          = if true = true then ["level auto"] else [] :=
  ⟨(C3_stop_yields_auto (fun _ => 40000) true
      { speed := FAN_FULLSPEED, sensors := [scenarioSensor] } (by decide)).1,
   (C3_stop_yields_auto (fun _ => 40000) true
      { speed := FAN_FULLSPEED, sensors := [scenarioSensor] } (by decide)).2 (by decide)⟩

theorem monitor_event_with_perm (table : List transition_s) (hp : table.Perm trans)
    (read : Nat → Int) (ok : Bool) (g : globalstate_t) (event : Int)
    (hc : trans.countP (eligible g.speed event) ≤ 1) :
    monitor_event_with table read ok g event = monitor_event read ok g event := by
  have hc2 : table.countP (eligible g.speed event) ≤ 1 := by
    rw [hp.countP_eq]; exact hc
  simp only [monitor_event, monitor_event_with]
  rw [scan_perm ok g.speed event _ _ _ _ hp hc2]

/-- C10: for each of the states FAN_ANY, AUTO, HIGHSPEED, FULLSPEED and each of the
events START, TIMER, STOP at most one row of `trans` passes the test of the
scan, so `monitor_event` over any reordering of the five rows gives the same
result; START and STOP select exactly the wildcard row of that event and give
AUTO, TIMER selects exactly the row of the current state, and TIMER in state
FAN_ANY selects no row and leaves the fan speed unchanged, without a call of
`sys_fan`. -/
theorem C10_single_eligible_row (speed event : Int)
    (hs : speed ∈ [FAN_ANY, FAN_AUTO, FAN_HIGHSPEED, FAN_FULLSPEED])
    (he : event ∈ [EV_START, EV_TIMER, EV_STOP]) :
    trans.countP (eligible speed event) ≤ 1
    ∧ (∀ (table : List transition_s), table.Perm trans →
        ∀ (read : Nat → Int) (ok : Bool) (sensors : List sensor_s),
          monitor_event_with table read ok { speed := speed, sensors := sensors } event
            = monitor_event read ok { speed := speed, sensors := sensors } event)
    ∧ (event = EV_START →
        trans.filter (eligible speed event) = [⟨FAN_ANY, EV_START, _clear⟩]
        ∧ ∀ (read : Nat → Int) (ok : Bool) (sensors : List sensor_s),
            (monitor_event read ok { speed := speed, sensors := sensors } event).gact.speed
              = FAN_AUTO)
    ∧ (event = EV_STOP →
        trans.filter (eligible speed event) = [⟨FAN_ANY, EV_STOP, _clear⟩]
        ∧ ∀ (read : Nat → Int) (ok : Bool) (sensors : List sensor_s),
            (monitor_event read ok { speed := speed, sensors := sensors } event).gact.speed
              = FAN_AUTO)
    ∧ (event = EV_TIMER → speed = FAN_AUTO →
        trans.filter (eligible speed event) = [⟨FAN_AUTO, EV_TIMER, _auto⟩])
    ∧ (event = EV_TIMER → speed = FAN_HIGHSPEED →
        trans.filter (eligible speed event) = [⟨FAN_HIGHSPEED, EV_TIMER, _highspeed⟩])
    ∧ (event = EV_TIMER → speed = FAN_FULLSPEED →
        trans.filter (eligible speed event) = [⟨FAN_FULLSPEED, EV_TIMER, _fullspeed⟩])
    ∧ (event = EV_TIMER → speed = FAN_ANY →
        trans.filter (eligible speed event) = []
        ∧ ∀ (read : Nat → Int) (ok : Bool) (sensors : List sensor_s),
            (monitor_event read ok { speed := speed, sensors := sensors } event).gact.speed
              = FAN_ANY
            ∧ (monitor_event read ok { speed := speed, sensors := sensors } event).calls = []) := by
  refine ⟨countP_eligible_trans speed event hs he, ?_, ?_, ?_, ?_, ?_, ?_, ?_⟩
  · intro table hp read ok sensors
    exact monitor_event_with_perm table hp read ok _ event
      (countP_eligible_trans speed event hs he)
  · rintro rfl
    refine ⟨?_, fun read ok sensors => ?_⟩
    · simp [trans, eligible, List.filter, EV_START, EV_TIMER, EV_STOP]
    · rw [monitor_event_speed, scan_trans_start, applyRow_speed]; rfl
  · rintro rfl
    refine ⟨?_, fun read ok sensors => ?_⟩
    · simp [trans, eligible, List.filter, EV_START, EV_TIMER, EV_STOP]
    · rw [monitor_event_speed, scan_trans_stop, applyRow_speed]; rfl
  · rintro rfl rfl
    simp [trans, eligible, List.filter, EV_START, EV_TIMER, EV_STOP, FAN_ANY, FAN_AUTO,
      FAN_HIGHSPEED, FAN_FULLSPEED]
  · rintro rfl rfl
    simp [trans, eligible, List.filter, EV_START, EV_TIMER, EV_STOP, FAN_ANY, FAN_AUTO,
      FAN_HIGHSPEED, FAN_FULLSPEED]
  · rintro rfl rfl
    simp [trans, eligible, List.filter, EV_START, EV_TIMER, EV_STOP, FAN_ANY, FAN_AUTO,
      FAN_HIGHSPEED, FAN_FULLSPEED]
  · rintro rfl rfl
    refine ⟨?_, fun read ok sensors => ?_⟩
    · simp [trans, eligible, List.filter, EV_START, EV_TIMER, EV_STOP, FAN_ANY, FAN_AUTO,
        FAN_HIGHSPEED, FAN_FULLSPEED]
    · rw [monitor_event_speed, monitor_event_calls,
        scan_trans_timer_other ok FAN_ANY _ _ _ _ (by decide) (by decide) (by decide)]
      exact ⟨rfl, rfl⟩

/-- C10, at a concrete input: the table in reverse order, state HIGHSPEED, a
TIMER event with one sensor reading 40000. -/
theorem C10_single_eligible_row_witness :
    monitor_event_with trans.reverse (fun _ => 40000) true
        { speed := FAN_HIGHSPEED, sensors := [scenarioSensor] } EV_TIMER
      = monitor_event (fun _ => 40000) true
          { speed := FAN_HIGHSPEED, sensors := [scenarioSensor] } EV_TIMER
    ∧ trans.filter (eligible FAN_HIGHSPEED EV_TIMER)
        = [⟨FAN_HIGHSPEED, EV_TIMER, _highspeed⟩] :=
  ⟨(C10_single_eligible_row FAN_HIGHSPEED EV_TIMER (by decide) (by decide)).2.1
      trans.reverse (List.reverse_perm trans) (fun _ => 40000) true [scenarioSensor],
   (C10_single_eligible_row FAN_HIGHSPEED EV_TIMER (by decide) (by decide)).2.2.2.2.2.1
      rfl rfl⟩

/-! ## The sensor loop -/

theorem shiftLoop_length (j : Nat) : ∀ temp : List Int, (shiftLoop j temp).length = temp.length := by
  induction j with
  | zero => intro temp; rfl
  | succ j ih => intro temp; simp [shiftLoop, ih]

theorem shiftLoop_getElem? (j : Nat) :
    ∀ (temp : List Int) (k : Nat), j < temp.length →
      (shiftLoop j temp)[k]? = if 1 ≤ k ∧ k ≤ j then temp[k - 1]? else temp[k]? := by
  induction j with
  | zero =>
    intro temp k _
    have : ¬ (1 ≤ k ∧ k ≤ 0) := by omega
    rw [if_neg this, shiftLoop]
  | succ j ih =>
    intro temp k hj
    have hj2 : j < (temp.set (j + 1) (temp.getD j 0)).length := by
      rw [List.length_set]; omega
    rw [shiftLoop, ih _ k hj2]
    by_cases h1 : 1 ≤ k ∧ k ≤ j
    · have h2 : 1 ≤ k ∧ k ≤ j + 1 := by omega
      have h3 : j + 1 ≠ k - 1 := by omega
      simp [h1, h2, List.getElem?_set_ne h3]
    · by_cases h4 : k = j + 1
      · subst h4
        have h5 : ¬ (1 ≤ j + 1 ∧ j + 1 ≤ j) := by omega
        have h6 : j < temp.length := by omega
        simp [h5, List.getElem?_set_self hj, List.getD_eq_getElem?_getD, List.getElem?_eq_getElem h6]
      · have h5 : ¬ (1 ≤ k ∧ k ≤ j + 1) := by omega
        have h6 : j + 1 ≠ k := fun h => h4 h.symm
        simp [h1, h5, List.getElem?_set_ne h6]

theorem updateSensor_temp_length (s : sensor_s) (r : Int) :
    (updateSensor s r).temp.length = s.temp.length := by
  simp [updateSensor, shiftLoop_length]

theorem updateSensor_temp_getElem? (s : sensor_s) (r : Int) (hlen : s.temp.length = __DATALEN)
    (k : Nat) :
    (updateSensor s r).temp[k]?
      = if k = 0 then some r else if k < __DATALEN then s.temp[k - 1]? else none := by
  have h31 : __DATALEN - 1 < s.temp.length := by rw [hlen]; decide
  have hD : __DATALEN = 32 := rfl
  simp only [updateSensor]
  by_cases hk : k = 0
  · subst hk
    have : 0 < (shiftLoop (__DATALEN - 1) s.temp).length := by
      rw [shiftLoop_length, hlen]; decide
    simp [List.getElem?_set_self this]
  · have hne : 0 ≠ k := fun h => hk h.symm
    rw [List.getElem?_set_ne hne, shiftLoop_getElem? _ _ _ h31]
    by_cases hk2 : k < __DATALEN
    · have : 1 ≤ k ∧ k ≤ __DATALEN - 1 := by omega
      simp [hk, hk2, this]
    · have : ¬ (1 ≤ k ∧ k ≤ __DATALEN - 1) := by omega
      have h3 : s.temp.length ≤ k := by omega
      simp [hk, hk2, this, List.getElem?_eq_none h3]

theorem updateSensor_temp (s : sensor_s) (r : Int) (hlen : s.temp.length = __DATALEN) :
    (updateSensor s r).temp = r :: s.temp.take (__DATALEN - 1) := by
  apply List.ext_getElem?
  intro k
  rw [updateSensor_temp_getElem? s r hlen k]
  cases k with
  | zero => simp
  | succ k =>
    have hD : __DATALEN = 32 := rfl
    by_cases hk : k + 1 < __DATALEN
    · have : k < __DATALEN - 1 := by omega
      simp [hk, List.getElem?_take_of_lt this]
    · have h2 : (s.temp.take (__DATALEN - 1)).length ≤ k := by
        rw [List.length_take]; omega
      simp [hk, List.getElem?_eq_none h2]

theorem updateSensor_temp_min (s : sensor_s) (r : Int) (hlen : s.temp.length = __DATALEN) :
    (updateSensor s r).temp_min = min s.temp_min r := by
  have h0 : ((shiftLoop (__DATALEN - 1) s.temp).set 0 r).getD 0 0 = r := by
    have : 0 < (shiftLoop (__DATALEN - 1) s.temp).length := by
      rw [shiftLoop_length, hlen]; decide
    simp [List.getD_eq_getElem?_getD, List.getElem?_set_self this]
  simp only [updateSensor, h0]
  by_cases h : s.temp_min > r
  · simp [h, min_eq_right (le_of_lt h)]
  · simp [h, min_eq_left (not_lt.mp h)]

theorem updateSensor_temp_max (s : sensor_s) (r : Int) :
    (updateSensor s r).temp_max = s.temp_max := by
  simp only [updateSensor]

theorem sensorLoop_fst_getElem? (read : Nat → Int) :
    ∀ (ss : List sensor_s) (i : Nat) (a : Locals) (k : Nat),
      (sensorLoop read i ss a).1[k]? = (ss[k]?).map (fun s => updateSensor s (read (i + k))) := by
  intro ss
  induction ss with
  | nil => intro i a k; simp [sensorLoop]
  | cons s rest ih =>
    intro i a k
    cases k with
    | zero => simp [sensorLoop]
    | succ k =>
      simp only [sensorLoop, List.getElem?_cons_succ]
      rw [ih]
      have : i + 1 + k = i + (k + 1) := by omega
      rw [this]

theorem sensorsOf_getElem? (read : Nat → Int) (ss : List sensor_s) (k : Nat) :
    (sensorsOf read ss)[k]? = (ss[k]?).map (fun s => updateSensor s (read k)) := by
  simp [sensorsOf, sensorLoop_fst_getElem?]

theorem runEvents_sensors_getElem? (evs : List Event) :
    ∀ (g : globalstate_t) (i : Nat),
      (runEvents g evs).sensors[i]?
        = (g.sensors[i]?).map (fun s => (readingsOf evs i).foldl updateSensor s) := by
  induction evs with
  | nil => intro g i; simp [runEvents, readingsOf]
  | cons e es ih =>
    intro g i
    rw [runEvents, ih, monitor_event_sensors, sensorsOf_getElem?]
    cases g.sensors[i]? <;> simp [readingsOf]

theorem foldl_updateSensor_length (rs : List Int) :
    ∀ s : sensor_s, (rs.foldl updateSensor s).temp.length = s.temp.length := by
  induction rs with
  | nil => intro s; rfl
  | cons r rs ih => intro s; rw [List.foldl_cons, ih, updateSensor_temp_length]

theorem take_append_cons_take (n : Nat) (A T : List Int) (r : Int) :
    (A ++ r :: T.take (n - 1)).take n = (A ++ r :: T).take n := by
  rw [List.take_append_eq_append_take, List.take_append_eq_append_take]
  congr 1
  cases h : n - A.length with
  | zero => rfl
  | succ m =>
    have : m ≤ n - 1 := by omega
    simp [List.take_take, Nat.min_eq_left this]

theorem foldl_updateSensor_temp (rs : List Int) :
    ∀ s : sensor_s, s.temp.length = __DATALEN →
      (rs.foldl updateSensor s).temp = (rs.reverse ++ s.temp).take __DATALEN := by
  induction rs with
  | nil =>
    intro s hlen
    simp [← hlen]
  | cons r rs ih =>
    intro s hlen
    have hl2 : (updateSensor s r).temp.length = __DATALEN := by
      rw [updateSensor_temp_length, hlen]
    rw [List.foldl_cons, ih _ hl2, updateSensor_temp s r hlen, take_append_cons_take]
    simp

theorem sys_initsensor_temp (r : Bool) (m : Option Int) (s : sensor_s)
    (h : sys_initsensor r m = some s) :
    s.temp = List.replicate __DATALEN 0 ∧ s.temp_min = s.temp_max := by
  simp only [sys_initsensor] at h
  split at h
  · cases h
  · split at h
    · cases h
    · cases h; exact ⟨rfl, rfl⟩

/-- C9: on every event `monitor_event` gives every sensor the history whose entry
0 is the reading just taken and whose entry `j` is the old entry `j - 1` for
1 <= j <= 31 (the old entry 31 is dropped), a zero reading included; hence,
starting from sensors made by `sys_initsensor`, after the events `evs` entry `j`
of the history of sensor `i` is the reading taken `j` events ago for
j < min (number of events) 32, and 0 for every other index. -/
theorem C9_history_shift :
    (∀ (e : Event) (g : globalstate_t) (i : Nat) (s : sensor_s),
        g.sensors[i]? = some s → s.temp.length = __DATALEN →
        ∃ s' : sensor_s,
          (monitor_event e.read e.fopenOk g e.event).gact.sensors[i]? = some s'
          ∧ s'.temp.length = __DATALEN
          ∧ s'.temp[0]? = some (e.read i)
          ∧ ∀ j : Nat, 1 ≤ j → j ≤ 31 → s'.temp[j]? = s.temp[j - 1]?)
    ∧ (∀ (evs : List Event) (g : globalstate_t) (i : Nat) (s' : sensor_s),
        (∀ s ∈ g.sensors, ∃ r m, sys_initsensor r m = some s) →
        (runEvents g evs).sensors[i]? = some s' →
        s'.temp.length = __DATALEN
        ∧ ∀ j : Nat, s'.temp.getD j 0
            = if j < min evs.length 32 then (readingsOf evs i).reverse.getD j 0 else 0) := by
  constructor
  · intro e g i s hs hlen
    refine ⟨updateSensor s (e.read i), ?_, ?_, ?_, ?_⟩
    · rw [monitor_event_sensors, sensorsOf_getElem?, hs]; rfl
    · rw [updateSensor_temp_length, hlen]
    · rw [updateSensor_temp_getElem? s _ hlen]; simp
    · intro j h1 h2
      have hD : __DATALEN = 32 := rfl
      have h3 : j ≠ 0 := by omega
      have h4 : j < __DATALEN := by omega
      rw [updateSensor_temp_getElem? s _ hlen]
      simp [h3, h4]
  · intro evs g i s' hinit hs'
    rw [runEvents_sensors_getElem?] at hs'
    cases hg : g.sensors[i]? with
    | none => simp [hg] at hs'
    | some s =>
      rw [hg] at hs'
      simp only [Option.map_some', Option.some.injEq] at hs'
      obtain ⟨r, m, hm⟩ := hinit s (List.getElem?_mem hg)
      obtain ⟨ht, -⟩ := sys_initsensor_temp r m s hm
      have hlen : s.temp.length = __DATALEN := by rw [ht]; simp
      have hD : __DATALEN = 32 := rfl
      have hrl : (readingsOf evs i).reverse.length = evs.length := by simp [readingsOf]
      subst hs'
      refine ⟨by rw [foldl_updateSensor_length, hlen], fun j => ?_⟩
      rw [foldl_updateSensor_temp _ _ hlen, ht, List.getD_eq_getElem?_getD,
        List.getD_eq_getElem?_getD, List.getElem?_take]
      by_cases hj : j < min evs.length 32
      · have h1 : j < __DATALEN := by omega
        have h2 : j < (readingsOf evs i).reverse.length := by omega
        rw [if_pos h1, if_pos hj, List.getElem?_append_left h2]
      · rw [if_neg hj]
        by_cases h1 : j < __DATALEN
        · have h2 : (readingsOf evs i).reverse.length ≤ j := by omega
          rw [if_pos h1, List.getElem?_append_right h2]
          have h3 : j - (readingsOf evs i).reverse.length < __DATALEN := by omega
          have h4 : j - (readingsOf evs i).length < __DATALEN := by omega
          simp [List.getElem?_replicate, h4]
        · rw [if_neg h1]; rfl

/-- C9, at concrete inputs: the first timer tick of the end-to-end scenario for
sensor A, and the history of sensor A after START and one tick. -/
theorem C9_history_shift_witness :
    (∃ s' : sensor_s,
        (monitor_event (scenarioRead 1) true (scenarioRun 0) EV_TIMER).gact.sensors[0]? = some s'
        ∧ s'.temp.length = __DATALEN
        ∧ s'.temp[0]? = some (scenarioRead 1 0)
        ∧ ∀ j : Nat, 1 ≤ j → j ≤ 31 →
            s'.temp[j]? = (40000 :: List.replicate 31 (0 : Int))[j - 1]?)
    ∧ ((41000 :: 40000 :: List.replicate 30 (0 : Int)).length = __DATALEN
        ∧ ∀ j : Nat, (41000 :: 40000 :: List.replicate 30 (0 : Int)).getD j 0
            = if j < min 2 32
              then (readingsOf [⟨EV_START, scenarioRead 0, true⟩, ⟨EV_TIMER, scenarioRead 1, true⟩]
                      0).reverse.getD j 0
              else 0) :=
  ⟨C9_history_shift.1 ⟨EV_TIMER, scenarioRead 1, true⟩ (scenarioRun 0) 0
      { temp := 40000 :: List.replicate 31 0, temp_max := 90000, temp_min := 40000 }
      (by decide!) (by decide),
   C9_history_shift.2 [⟨EV_START, scenarioRead 0, true⟩, ⟨EV_TIMER, scenarioRead 1, true⟩]
      scenarioInit 0
      { temp := 41000 :: 40000 :: List.replicate 30 0, temp_max := 90000, temp_min := 40000 }
      (fun s hs => ⟨true, some 90000, by
        simp only [scenarioInit, List.mem_cons, List.mem_singleton, List.not_mem_nil,
          or_false, or_self] at hs
        rw [hs]; rfl⟩)
      (by decide!)⟩

theorem foldl_min_le_init (l : List Int) : ∀ A : Int, l.foldl min A ≤ A := by
  induction l with
  | nil => intro A; exact le_refl A
  | cons x l ih => intro A; exact le_trans (ih (min A x)) (min_le_left A x)

theorem foldl_min_le_mem (l : List Int) : ∀ (A x : Int), x ∈ l → l.foldl min A ≤ x := by
  induction l with
  | nil => intro A x hx; cases hx
  | cons y l ih =>
    intro A x hx
    rw [List.foldl_cons]
    rcases List.mem_cons.mp hx with rfl | h
    · exact le_trans (foldl_min_le_init l _) (min_le_right A x)
    · exact ih _ x h

theorem foldl_min_eq (l : List Int) : ∀ A : Int, l.foldl min A = A ∨ l.foldl min A ∈ l := by
  induction l with
  | nil => intro A; exact Or.inl rfl
  | cons y l ih =>
    intro A
    rw [List.foldl_cons]
    rcases ih (min A y) with h | h
    · rcases min_choice A y with h2 | h2
      · left; rw [h, h2]
      · right; rw [h, h2]; exact List.mem_cons_self _ _
    · right; exact List.mem_cons_of_mem _ h

theorem foldl_updateSensor_temp_min (rs : List Int) :
    ∀ s : sensor_s, s.temp.length = __DATALEN →
      (rs.foldl updateSensor s).temp_min = rs.foldl min s.temp_min := by
  induction rs with
  | nil => intro s _; rfl
  | cons r rs ih =>
    intro s hlen
    have hl2 : (updateSensor s r).temp.length = __DATALEN := by
      rw [updateSensor_temp_length, hlen]
    rw [List.foldl_cons, ih _ hl2, updateSensor_temp_min s r hlen, List.foldl_cons]

/-- C4 fails as stated: a zero reading lowers `temp_min` from 90000 to 0 instead of
leaving it unchanged, and with the initial `temp_min` 90000 (the configured
maximum) a single nonzero reading 95000 leaves `temp_min` at 90000, lower than
the minimum 95000 of the nonzero readings seen. -/
theorem C4_observed_min_counterexample :
    ({ speed := FAN_AUTO, sensors := [scenarioSensor] } : globalstate_t).sensors.map
        (fun s => s.temp_min) = [90000]
    ∧ (monitor_event (fun _ => 0) true { speed := FAN_AUTO, sensors := [scenarioSensor] }
        EV_TIMER).gact.sensors.map (fun s => s.temp_min) = [0]
    ∧ (monitor_event (fun _ => 95000) true { speed := FAN_AUTO, sensors := [scenarioSensor] }
        EV_TIMER).gact.sensors.map (fun s => s.temp_min) = [90000] := by
  decide!

/-- C4, amended: on each event a sensor's `temp_min` becomes
min (temp_min, reading) when the reading is nonzero, and for every reading it
does not increase; over any sequence of events `temp_min` is non-increasing, and
over a sequence whose readings are all nonzero it is the minimum of the initial
`temp_min` and the readings: at most every reading seen, and equal to one of
them (so not lower than their true minimum) when some reading is at most the
initial `temp_min`. -/
theorem C4_observed_min_rule :
    (∀ (e : Event) (g : globalstate_t) (i : Nat) (s : sensor_s),
        g.sensors[i]? = some s → s.temp.length = __DATALEN →
        ∃ s' : sensor_s,
          (monitor_event e.read e.fopenOk g e.event).gact.sensors[i]? = some s'
          ∧ (e.read i ≠ 0 → s'.temp_min = min s.temp_min (e.read i))
          ∧ s'.temp_min ≤ s.temp_min)
    ∧ (∀ (evs : List Event) (g : globalstate_t) (i : Nat) (s s' : sensor_s),
        g.sensors[i]? = some s → s.temp.length = __DATALEN →
        (runEvents g evs).sensors[i]? = some s' →
        s'.temp_min ≤ s.temp_min
        ∧ ((∀ r ∈ readingsOf evs i, r ≠ 0) →
            s'.temp_min = (readingsOf evs i).foldl min s.temp_min
            ∧ (∀ r ∈ readingsOf evs i, s'.temp_min ≤ r)
            ∧ ((∃ r ∈ readingsOf evs i, r ≤ s.temp_min) →
                ∃ r ∈ readingsOf evs i, s'.temp_min = r))) := by
  constructor
  · intro e g i s hs hlen
    refine ⟨updateSensor s (e.read i), ?_, fun _ => updateSensor_temp_min s _ hlen, ?_⟩
    · rw [monitor_event_sensors, sensorsOf_getElem?, hs]; rfl
    · rw [updateSensor_temp_min s _ hlen]; exact min_le_left _ _
  · intro evs g i s s' hs hlen hs'
    rw [runEvents_sensors_getElem?, hs] at hs'
    simp only [Option.map_some', Option.some.injEq] at hs'
    subst hs'
    rw [foldl_updateSensor_temp_min _ _ hlen]
    refine ⟨foldl_min_le_init _ _, fun _ => ⟨rfl, fun r hr => foldl_min_le_mem _ _ r hr, ?_⟩⟩
    rintro ⟨r, hr, hle⟩
    rcases foldl_min_eq (readingsOf evs i) s.temp_min with h | h
    · refine ⟨r, hr, ?_⟩
      have := foldl_min_le_mem (readingsOf evs i) s.temp_min r hr
      omega
    · exact ⟨_, h, rfl⟩

/-- C4 (amended), at concrete inputs: sensor A of the end-to-end scenario on its
first timer tick (reading 41000, `temp_min` 40000 before), and over START
followed by that tick (readings 40000 and 41000, `temp_min` 90000 before). -/
theorem C4_observed_min_rule_witness :
    (∃ s' : sensor_s,
        (monitor_event (scenarioRead 1) true (scenarioRun 0) EV_TIMER).gact.sensors[0]? = some s'
        ∧ s'.temp_min = min 40000 (scenarioRead 1 0)
        ∧ s'.temp_min ≤ 40000)
    ∧ (40000 : Int) ≤ 90000
    ∧ (40000 : Int) = (readingsOf [⟨EV_START, scenarioRead 0, true⟩,
          ⟨EV_TIMER, scenarioRead 1, true⟩] 0).foldl min 90000
    ∧ (∀ r ∈ readingsOf [⟨EV_START, scenarioRead 0, true⟩,
          ⟨EV_TIMER, scenarioRead 1, true⟩] 0, (40000 : Int) ≤ r)
    ∧ (∃ r ∈ readingsOf [⟨EV_START, scenarioRead 0, true⟩,
          ⟨EV_TIMER, scenarioRead 1, true⟩] 0, (40000 : Int) = r) := by
  obtain ⟨s', h1, h2, h3⟩ := C4_observed_min_rule.1 ⟨EV_TIMER, scenarioRead 1, true⟩
    (scenarioRun 0) 0
    { temp := 40000 :: List.replicate 31 0, temp_max := 90000, temp_min := 40000 }
    (by decide!) (by decide)
  obtain ⟨k1, k2⟩ := C4_observed_min_rule.2
    [⟨EV_START, scenarioRead 0, true⟩, ⟨EV_TIMER, scenarioRead 1, true⟩] scenarioInit 0
    { temp := List.replicate 32 0, temp_max := 90000, temp_min := 90000 }
    { temp := 41000 :: 40000 :: List.replicate 30 0, temp_max := 90000, temp_min := 40000 }
    (by decide!) (by decide) (by decide!)
  obtain ⟨k3, k4, k5⟩ := k2 (by decide)
  exact ⟨⟨s', h1, h2 (by decide), h3⟩, k1, k3, k4, k5 ⟨40000, by decide, by decide⟩⟩

/-! ## The temperature range -/

theorem regLoop_min_max (temp : List Int) :
    ∀ (fuel j : Nat) (a : Locals),
      (regLoop temp fuel j a).min = a.min ∧ (regLoop temp fuel j a).max = a.max := by
  intro fuel
  induction fuel with
  | zero => intro j a; exact ⟨rfl, rfl⟩
  | succ fuel ih =>
    intro j a
    simp only [regLoop]
    split
    · exact ⟨rfl, rfl⟩
    · rw [(ih _ _).1, (ih _ _).2]; exact ⟨rfl, rfl⟩

theorem ofInt_min_step (t A : Int) :
    (if Dbl.lt (Dbl.ofInt t) (Dbl.ofInt A) then Dbl.ofInt t else Dbl.ofInt A)
      = Dbl.ofInt (min A t) := by
  by_cases h : t < A
  · have : ((t : ℚ) < (A : ℚ)) := by exact_mod_cast h
    simp [Dbl.lt, Dbl.ofInt, this, min_eq_right (le_of_lt h)]
  · have : ¬ ((t : ℚ) < (A : ℚ)) := by exact_mod_cast h
    simp [Dbl.lt, Dbl.ofInt, this, min_eq_left (not_lt.mp h)]

theorem sensorLoop_min_max (read : Nat → Int) :
    ∀ (ss : List sensor_s) (i : Nat) (a : Locals) (A B : Int),
      a.min = Dbl.ofInt A → a.max = Dbl.ofInt B →
      (sensorLoop read i ss a).2.min
          = Dbl.ofInt (((sensorLoop read i ss a).1.map (fun s => s.temp_min)).foldl min A)
      ∧ (sensorLoop read i ss a).2.max
          = Dbl.ofInt (((sensorLoop read i ss a).1.map (fun s => s.temp_max)).foldl min B) := by
  intro ss
  induction ss with
  | nil => intro i a A B hA hB; exact ⟨hA, hB⟩
  | cons s rest ih =>
    intro i a A B hA hB
    simp only [sensorLoop, List.map_cons, List.foldl_cons]
    apply ih
    · rw [(regLoop_min_max _ _ _ _).1]
      simp only [rangeStep, hA]
      exact ofInt_min_step _ _
    · rw [(regLoop_min_max _ _ _ _).2]
      simp only [rangeStep, hB]
      exact ofInt_min_step _ _

/-- C5 fails as stated: with one sensor whose maximum file holds 105000 and whose
reading is 102000, `temp_min` is 102000 and `temp_max` is 105000, yet the range
that `monitor_event` computes is min = 100000 and max = 100000. -/
theorem C5_range_capped_counterexample :
    (sensorsOf (fun _ => 102000)
        [{ temp := List.replicate 32 0, temp_max := 105000, temp_min := 105000 }]).map
        (fun s => (s.temp_min, s.temp_max)) = [(102000, 105000)]
    ∧ (localsOf (fun _ => 102000)
        [{ temp := List.replicate 32 0, temp_max := 105000, temp_min := 105000 }]).min
        = Dbl.ofInt 100000
    ∧ (localsOf (fun _ => 102000)
        [{ temp := List.replicate 32 0, temp_max := 105000, temp_min := 105000 }]).max
        = Dbl.ofInt 100000 := by
  decide!

/-- C5, amended: the `min` that `monitor_event` computes is the minimum of 100000
and the `temp_min` of all sensors (after this event's update), and the `max`
(before the division by 1000) is the minimum of 100000 and the `temp_max` of
all sensors; so they are the minima across the sensors whenever some sensor has
`temp_min`, respectively `temp_max`, at most 100000. -/
theorem C5_range_is_capped_minimum (read : Nat → Int) (sensors : List sensor_s) :
    (localsOf read sensors).min
        = Dbl.ofInt (((sensorsOf read sensors).map (fun s => s.temp_min)).foldl min 100000)
    ∧ (localsOf read sensors).max
        = Dbl.ofInt (((sensorsOf read sensors).map (fun s => s.temp_max)).foldl min 100000)
    ∧ ((∃ s ∈ sensorsOf read sensors, s.temp_min ≤ 100000) →
        ∃ s ∈ sensorsOf read sensors,
          (localsOf read sensors).min = Dbl.ofInt s.temp_min
          ∧ ∀ t ∈ sensorsOf read sensors, s.temp_min ≤ t.temp_min)
    ∧ ((∃ s ∈ sensorsOf read sensors, s.temp_max ≤ 100000) →
        ∃ s ∈ sensorsOf read sensors,
          (localsOf read sensors).max = Dbl.ofInt s.temp_max
          ∧ ∀ t ∈ sensorsOf read sensors, s.temp_max ≤ t.temp_max) := by
  have h0 : Locals.init.min = Dbl.ofInt 100000 := by simp [Locals.init, Dbl.ofInt]
  have h1 : Locals.init.max = Dbl.ofInt 100000 := by simp [Locals.init, Dbl.ofInt]
  obtain ⟨hmin, hmax⟩ := sensorLoop_min_max read sensors 0 Locals.init 100000 100000 h0 h1
  refine ⟨hmin, hmax, ?_, ?_⟩
  · rintro ⟨s, hs, hle⟩
    have hmem : s.temp_min ∈ (sensorsOf read sensors).map (fun s => s.temp_min) :=
      List.mem_map_of_mem _ hs
    have hb := foldl_min_le_mem _ 100000 _ hmem
    rcases foldl_min_eq ((sensorsOf read sensors).map (fun s => s.temp_min)) 100000 with h | h
    · refine ⟨s, hs, ?_, fun t ht => ?_⟩
      · rw [localsOf, hmin]
        congr 1
        rw [sensorsOf] at h hb
        omega
      · have h2 := foldl_min_le_mem _ 100000 _ (List.mem_map_of_mem (fun s => s.temp_min) ht)
        simp only at h2
        omega
    · obtain ⟨u, hu, hue⟩ := List.mem_map.mp h
      refine ⟨u, hu, ?_, fun t ht => ?_⟩
      · rw [localsOf, hmin, hue]; rfl
      · rw [hue]
        exact foldl_min_le_mem _ 100000 _ (List.mem_map_of_mem (fun s => s.temp_min) ht)
  · rintro ⟨s, hs, hle⟩
    have hmem : s.temp_max ∈ (sensorsOf read sensors).map (fun s => s.temp_max) :=
      List.mem_map_of_mem _ hs
    have hb := foldl_min_le_mem _ 100000 _ hmem
    rcases foldl_min_eq ((sensorsOf read sensors).map (fun s => s.temp_max)) 100000 with h | h
    · refine ⟨s, hs, ?_, fun t ht => ?_⟩
      · rw [localsOf, hmax]
        congr 1
        rw [sensorsOf] at h hb
        omega
      · have h2 := foldl_min_le_mem _ 100000 _ (List.mem_map_of_mem (fun s => s.temp_max) ht)
        simp only at h2
        omega
    · obtain ⟨u, hu, hue⟩ := List.mem_map.mp h
      refine ⟨u, hu, ?_, fun t ht => ?_⟩
      · rw [localsOf, hmax, hue]; rfl
      · rw [hue]
        exact foldl_min_le_mem _ 100000 _ (List.mem_map_of_mem (fun s => s.temp_max) ht)

/-- C5 (amended), at a concrete input: the START event of the end-to-end
scenario, where sensor B (`temp_min` 35000) gives the minimum and sensor A the
maximum 90000. -/
theorem C5_range_is_capped_minimum_witness :
    (∃ s ∈ sensorsOf (scenarioRead 0) scenarioInit.sensors,
        (localsOf (scenarioRead 0) scenarioInit.sensors).min = Dbl.ofInt s.temp_min
        ∧ ∀ t ∈ sensorsOf (scenarioRead 0) scenarioInit.sensors, s.temp_min ≤ t.temp_min)
    ∧ (∃ s ∈ sensorsOf (scenarioRead 0) scenarioInit.sensors,
        (localsOf (scenarioRead 0) scenarioInit.sensors).max = Dbl.ofInt s.temp_max
        ∧ ∀ t ∈ sensorsOf (scenarioRead 0) scenarioInit.sensors, s.temp_max ≤ t.temp_max) :=
  ⟨(C5_range_is_capped_minimum (scenarioRead 0) scenarioInit.sensors).2.2.1
      ⟨{ temp := 35000 :: List.replicate 31 0, temp_max := 90000, temp_min := 35000 },
        by decide!, by decide⟩,
   (C5_range_is_capped_minimum (scenarioRead 0) scenarioInit.sensors).2.2.2
      ⟨{ temp := 35000 :: List.replicate 31 0, temp_max := 90000, temp_min := 35000 },
        by decide!, by decide⟩⟩

/-! ## The regression sums -/

theorem regLoop_eq_foldl (temp : List Int) :
    ∀ (fuel j : Nat) (a : Locals),
      regLoop temp fuel j a
        = (((temp.drop j).take fuel).takeWhile (fun t => t ≠ 0)).foldl regStep a := by
  intro fuel
  induction fuel with
  | zero => intro j a; simp [regLoop]
  | succ fuel ih =>
    intro j a
    by_cases hj : j < temp.length
    · rw [List.drop_eq_getElem_cons hj, List.take_succ_cons]
      have hg : temp.getD j 0 = temp[j] := List.getD_eq_getElem _ _ hj
      simp only [regLoop, hg]
      by_cases h0 : temp[j] = 0
      · simp [h0]
      · simp [h0, ih]
    · have hg : temp.getD j 0 = 0 := List.getD_eq_default _ _ (by omega)
      have hd : temp.drop j = [] := List.drop_eq_nil_of_le (by omega)
      rw [hd]
      simp only [regLoop, hg]
      simp

theorem regLoop_validSamples (temp : List Int) (a : Locals) :
    regLoop temp __DATALEN 0 a = (validSamples temp).foldl regStep a := by
  rw [regLoop_eq_foldl]; rfl

theorem wrap32_of_inInt32 (x : Int) (h : inInt32 x = true) : wrap32 x = x := by
  simp only [inInt32, Bool.and_eq_true, decide_eq_true_eq] at h
  unfold wrap32
  omega

theorem inInt32_succ_of_sq (k : Nat) (h : inInt32 ((k : Int) * (k : Int)) = true) :
    inInt32 ((k : Int) + 1) = true := by
  simp only [inInt32, Bool.and_eq_true, decide_eq_true_eq] at h ⊢
  have hk : (k : Int) ≤ 46340 := by
    by_contra hc
    have h1 : (46341 : Int) ≤ k := by omega
    have h2 : (46341 : Int) * 46341 ≤ (k : Int) * (k : Int) :=
      mul_le_mul h1 h1 (by norm_num) (by omega)
    omega
  omega

theorem sumFrom_nil (f : ℚ → ℚ → ℚ) (k : Nat) : sumFrom f k [] = 0 := by
  simp [sumFrom]

theorem sumFrom_cons (f : ℚ → ℚ → ℚ) (k : Nat) (t : Int) (P : List Int) :
    sumFrom f k (t :: P) = f (k : ℚ) (t : ℚ) + sumFrom f (k + 1) P := by
  simp [sumFrom]

theorem sumFrom_append (f : ℚ → ℚ → ℚ) (A : List Int) :
    ∀ (k : Nat) (B : List Int),
      sumFrom f k (A ++ B) = sumFrom f k A + sumFrom f (k + A.length) B := by
  induction A with
  | nil => intro k B; simp [sumFrom_nil]
  | cons t A ih =>
    intro k B
    rw [List.cons_append, sumFrom_cons, sumFrom_cons, ih, List.length_cons]
    have : k + 1 + A.length = k + (A.length + 1) := by omega
    rw [this]; ring

theorem noOverflowFrom_append (A : List Int) :
    ∀ (k : Nat) (B : List Int),
      noOverflowFrom k (A ++ B) = (noOverflowFrom k A && noOverflowFrom (k + A.length) B) := by
  induction A with
  | nil => intro k B; simp [noOverflowFrom]
  | cons t A ih =>
    intro k B
    have : k + 1 + A.length = k + (A.length + 1) := by omega
    simp [noOverflowFrom, ih, this, Bool.and_assoc]

theorem Sums_regStep (a : Locals) (k : Nat) (sx sxx sy sxy : ℚ) (t : Int)
    (h : Sums a k sx sxx sy sxy) (h1 : inInt32 ((k : Int) * (k : Int)) = true)
    (h2 : inInt32 ((k : Int) * t) = true) :
    Sums (regStep a t) (k + 1) (sx + k) (sxx + k * k) (sy + t) (sxy + k * t) := by
  obtain ⟨hn, hsx, hsxx, hsy, hsxy⟩ := h
  have h3 := inInt32_succ_of_sq k h1
  refine ⟨?_, ?_, ?_, ?_, ?_⟩
  · simp only [regStep, hn]
    rw [wrap32_of_inInt32 _ h3]; push_cast; rfl
  · simp [regStep, hn, hsx, Dbl.add, Dbl.ofInt]
  · simp only [regStep, hn, hsxx]
    rw [wrap32_of_inInt32 _ h1]; simp [Dbl.add, Dbl.ofInt]
  · simp [regStep, hsy, Dbl.add, Dbl.ofInt]
  · simp only [regStep, hn, hsxy]
    rw [wrap32_of_inInt32 _ h2]; simp [Dbl.add, Dbl.ofInt]

theorem Sums_foldl (P : List Int) :
    ∀ (a : Locals) (k : Nat) (sx sxx sy sxy : ℚ),
      Sums a k sx sxx sy sxy → noOverflowFrom k P = true →
      Sums (P.foldl regStep a) (k + P.length)
        (sx + sumFrom (fun x _ => x) k P) (sxx + sumFrom (fun x _ => x * x) k P)
        (sy + sumFrom (fun _ y => y) k P) (sxy + sumFrom (fun x y => x * y) k P) := by
  induction P with
  | nil =>
    intro a k sx sxx sy sxy h _
    simpa [sumFrom_nil] using h
  | cons t P ih =>
    intro a k sx sxx sy sxy h hno
    simp only [noOverflowFrom, Bool.and_eq_true] at hno
    obtain ⟨⟨h1, h2⟩, h3⟩ := hno
    have hstep := Sums_regStep a k sx sxx sy sxy t h h1 h2
    have := ih _ _ _ _ _ _ hstep h3
    rw [List.foldl_cons, List.length_cons]
    have e : k + (P.length + 1) = k + 1 + P.length := by omega
    rw [e]
    simp only [sumFrom_cons]
    simpa [add_assoc] using this

theorem Sums_rangeStep (a : Locals) (s : sensor_s) (k : Nat) (sx sxx sy sxy : ℚ)
    (h : Sums a k sx sxx sy sxy) : Sums (rangeStep a s) k sx sxx sy sxy := h

theorem Sums_sensorLoop (read : Nat → Int) :
    ∀ (ss : List sensor_s) (i : Nat) (a : Locals) (k : Nat) (sx sxx sy sxy : ℚ),
      Sums a k sx sxx sy sxy →
      noOverflowFrom k (pooledSamples (sensorLoop read i ss a).1) = true →
      Sums (sensorLoop read i ss a).2 (k + (pooledSamples (sensorLoop read i ss a).1).length)
        (sx + sumFrom (fun x _ => x) k (pooledSamples (sensorLoop read i ss a).1))
        (sxx + sumFrom (fun x _ => x * x) k (pooledSamples (sensorLoop read i ss a).1))
        (sy + sumFrom (fun _ y => y) k (pooledSamples (sensorLoop read i ss a).1))
        (sxy + sumFrom (fun x y => x * y) k (pooledSamples (sensorLoop read i ss a).1)) := by
  intro ss
  induction ss with
  | nil =>
    intro i a k sx sxx sy sxy h _
    simpa [sensorLoop, pooledSamples, sumFrom_nil] using h
  | cons s rest ih =>
    intro i a k sx sxx sy sxy h hno
    simp only [sensorLoop, pooledSamples, List.flatMap_cons] at hno ⊢
    rw [noOverflowFrom_append, Bool.and_eq_true] at hno
    obtain ⟨hno1, hno2⟩ := hno
    have h1 := Sums_foldl (validSamples (updateSensor s (read i)).temp) _ k sx sxx sy sxy
      (Sums_rangeStep a (updateSensor s (read i)) k sx sxx sy sxy h) hno1
    rw [← regLoop_validSamples] at h1
    have h2 := ih (i + 1) _ _ _ _ _ _ h1 hno2
    simp only [pooledSamples] at h2
    rw [List.length_append, sumFrom_append, sumFrom_append, sumFrom_append, sumFrom_append]
    simpa [add_assoc] using h2

theorem Sums_localsOf (read : Nat → Int) (sensors : List sensor_s)
    (hno : noOverflow (pooledSamples (sensorsOf read sensors)) = true) :
    Sums (localsOf read sensors) (pooledSamples (sensorsOf read sensors)).length
      (specSx (pooledSamples (sensorsOf read sensors)))
      (specSxx (pooledSamples (sensorsOf read sensors)))
      (specSy (pooledSamples (sensorsOf read sensors)))
      (specSxy (pooledSamples (sensorsOf read sensors))) := by
  have h0 : Sums Locals.init 0 0 0 0 0 := ⟨rfl, rfl, rfl, rfl, rfl⟩
  have := Sums_sensorLoop read sensors 0 Locals.init 0 0 0 0 0 h0 hno
  simpa [localsOf, sensorsOf, specSx, specSxx, specSy, specSxy] using this

theorem sumFrom_index (P : List Int) :
    ∀ k : Nat, sumFrom (fun x _ => x) k P
      = (k : ℚ) * P.length + (P.length : ℚ) * ((P.length : ℚ) - 1) / 2 := by
  induction P with
  | nil => intro k; simp [sumFrom_nil]
  | cons t P ih =>
    intro k
    rw [sumFrom_cons, ih, List.length_cons]
    push_cast
    ring

theorem sumFrom_index_sq (P : List Int) :
    ∀ k : Nat, sumFrom (fun x _ => x * x) k P
      = (P.length : ℚ) * (k : ℚ) * (k : ℚ) + (k : ℚ) * (P.length : ℚ) * ((P.length : ℚ) - 1)
        + ((P.length : ℚ) - 1) * (P.length : ℚ) * (2 * (P.length : ℚ) - 1) / 6 := by
  induction P with
  | nil => intro k; simp [sumFrom_nil]
  | cons t P ih =>
    intro k
    rw [sumFrom_cons, ih, List.length_cons]
    push_cast
    ring

theorem specSx_eq (P : List Int) :
    specSx P = (P.length : ℚ) * ((P.length : ℚ) - 1) / 2 := by
  rw [specSx, sumFrom_index]; simp

theorem specSxx_eq (P : List Int) :
    specSxx P = ((P.length : ℚ) - 1) * (P.length : ℚ) * (2 * (P.length : ℚ) - 1) / 6 := by
  rw [specSxx, sumFrom_index_sq]; simp

theorem spec_denominator (P : List Int) (hn : (P.length : ℚ) ≠ 0) :
    specSxx P - specSx P * specSx P / (P.length : ℚ)
      = (P.length : ℚ) * ((P.length : ℚ) - 1) * ((P.length : ℚ) + 1) / 12 := by
  rw [specSx_eq, specSxx_eq]
  field_simp
  ring

theorem spec_denominator_pos (P : List Int) (hn : 2 ≤ P.length) :
    0 < specSxx P - specSx P * specSx P / (P.length : ℚ) := by
  have h2 : (2 : ℚ) ≤ (P.length : ℚ) := by exact_mod_cast hn
  have h0 : (P.length : ℚ) ≠ 0 := by linarith
  rw [spec_denominator P h0]
  have h1 : 0 < (P.length : ℚ) := by linarith
  have h3 : 0 < (P.length : ℚ) - 1 := by linarith
  have h4 : 0 < (P.length : ℚ) + 1 := by linarith
  positivity

theorem Dbl.sub_fin (a b : ℚ) : Dbl.sub (Dbl.fin a) (Dbl.fin b) = Dbl.fin (a - b) := by
  simp [Dbl.sub, Dbl.neg, Dbl.add, sub_eq_add_neg]

theorem Dbl.add_fin (a b : ℚ) : Dbl.add (Dbl.fin a) (Dbl.fin b) = Dbl.fin (a + b) := rfl

theorem Dbl.mul_fin (a b : ℚ) : Dbl.mul (Dbl.fin a) (Dbl.fin b) = Dbl.fin (a * b) := rfl

theorem Dbl.div_fin (a b : ℚ) (hb : b ≠ 0) :
    Dbl.div (Dbl.fin a) (Dbl.fin b) = Dbl.fin (a / b) := by
  simp [Dbl.div, hb]

theorem Dbl.div_zero_zero : Dbl.div (Dbl.fin 0) (Dbl.fin 0) = Dbl.nan := by
  simp [Dbl.div, Dbl.infOfSign]

theorem Dbl.ofInt_natCast (k : Nat) : Dbl.ofInt (k : Int) = Dbl.fin (k : ℚ) := by
  simp [Dbl.ofInt]

theorem slope_of_Sums (a : Locals) (k : Nat) (sx sxx sy sxy : ℚ)
    (h : Sums a k sx sxx sy sxy) (hk : (k : ℚ) ≠ 0) (hd : sxx - sx * sx / (k : ℚ) ≠ 0) :
    slope a = Dbl.fin ((sxy - sx * sy / (k : ℚ)) / (sxx - sx * sx / (k : ℚ))) := by
  obtain ⟨hn, hsx, hsxx, hsy, hsxy⟩ := h
  rw [slope, hn, hsx, hsxx, hsy, hsxy, Dbl.ofInt_natCast, Dbl.mul_fin, Dbl.mul_fin,
    Dbl.div_fin _ _ hk, Dbl.div_fin _ _ hk, Dbl.sub_fin, Dbl.sub_fin, Dbl.div_fin _ _ hd]

theorem intercept_of_Sums (a : Locals) (k : Nat) (sx sxx sy sxy : ℚ)
    (h : Sums a k sx sxx sy sxy) (hk : (k : ℚ) ≠ 0) (hd : sxx - sx * sx / (k : ℚ) ≠ 0) :
    intercept a
      = Dbl.fin ((sy - (sxy - sx * sy / (k : ℚ)) / (sxx - sx * sx / (k : ℚ)) * sx) / (k : ℚ)) := by
  rw [intercept, slope_of_Sums a k sx sxx sy sxy h hk hd]
  obtain ⟨hn, hsx, hsxx, hsy, hsxy⟩ := h
  rw [hn, hsx, hsy, Dbl.ofInt_natCast, Dbl.mul_fin, Dbl.sub_fin, Dbl.div_fin _ _ hk]

theorem predicted_of_Sums (a : Locals) (k : Nat) (sx sxx sy sxy : ℚ)
    (h : Sums a k sx sxx sy sxy) (hk : (k : ℚ) ≠ 0) (hd : sxx - sx * sx / (k : ℚ) ≠ 0) :
    predicted a
      = Dbl.fin ((sxy - sx * sy / (k : ℚ)) / (sxx - sx * sx / (k : ℚ)) * (-2 * (k : ℚ))
          + (sy - (sxy - sx * sy / (k : ℚ)) / (sxx - sx * sx / (k : ℚ)) * sx) / (k : ℚ)) := by
  rw [predicted, slope_of_Sums a k sx sxx sy sxy h hk hd,
    intercept_of_Sums a k sx sxx sy sxy h hk hd]
  obtain ⟨hn, -, -, -, -⟩ := h
  rw [hn, Dbl.ofInt_natCast, Dbl.mul_fin, Dbl.mul_fin, Dbl.add_fin]
  congr 2
  ring

theorem slope_nan_of_Sums (a : Locals) (k : Nat) (sy : ℚ) (h : Sums a k 0 0 sy 0)
    (hk : k ≤ 1) : slope a = Dbl.nan := by
  obtain ⟨hn, hsx, hsxx, hsy, hsxy⟩ := h
  rw [slope, hn, hsx, hsxx, hsy, hsxy, Dbl.ofInt_natCast, Dbl.mul_fin, Dbl.mul_fin]
  interval_cases k
  · simp [Dbl.div, Dbl.infOfSign, Dbl.sub, Dbl.add, Dbl.neg]
  · simp [Dbl.div, Dbl.infOfSign, Dbl.sub, Dbl.add, Dbl.neg]

theorem Dbl.nan_mul (d : Dbl) : Dbl.mul Dbl.nan d = Dbl.nan := by
  cases d <;> rfl

theorem Dbl.sub_nan (d : Dbl) : Dbl.sub d Dbl.nan = Dbl.nan := by
  cases d <;> rfl

theorem Dbl.nan_div (d : Dbl) : Dbl.div Dbl.nan d = Dbl.nan := by
  cases d <;> rfl

theorem Dbl.nan_add (d : Dbl) : Dbl.add Dbl.nan d = Dbl.nan := by
  cases d <;> rfl

theorem Dbl.nan_lt (d : Dbl) : Dbl.lt Dbl.nan d = false := by
  cases d <;> rfl

theorem Dbl.lt_nan (d : Dbl) : Dbl.lt d Dbl.nan = false := by
  cases d <;> rfl

theorem transArgs_nan (a : Locals) (h : slope a = Dbl.nan) :
    (transArgs a).temp = Dbl.nan ∧ (transArgs a).temp_out = Dbl.nan := by
  have hb : intercept a = Dbl.nan := by
    rw [intercept, h, Dbl.nan_mul, Dbl.sub_nan, Dbl.nan_div]
  constructor
  · simp only [transArgs]
    rw [hb, Dbl.nan_div]
  · simp only [transArgs]
    rw [predicted, h, Dbl.nan_mul, Dbl.nan_add]

theorem spec_sums_short (P : List Int) (hP : P.length ≤ 1) :
    specSx P = 0 ∧ specSxx P = 0 ∧ specSxy P = 0 ∧ noOverflow P = true := by
  match P, hP with
  | [], _ => simp [specSx, specSxx, specSxy, sumFrom_nil, noOverflow, noOverflowFrom]
  | [t], _ =>
    simp [specSx, specSxx, specSxy, sumFrom_cons, sumFrom_nil, noOverflow, noOverflowFrom,
      inInt32]

theorem transArgs_short (read : Nat → Int) (sensors : List sensor_s)
    (hP : (pooledSamples (sensorsOf read sensors)).length ≤ 1) :
    (transArgs (localsOf read sensors)).temp = Dbl.nan
    ∧ (transArgs (localsOf read sensors)).temp_out = Dbl.nan := by
  obtain ⟨h1, h2, h3, h4⟩ := spec_sums_short _ hP
  have hs := Sums_localsOf read sensors h4
  rw [h1, h2, h3] at hs
  exact transArgs_nan _ (slope_nan_of_Sums _ _ _ hs hP)

theorem transArgs_min_max (read : Nat → Int) (sensors : List sensor_s) :
    (transArgs (localsOf read sensors)).min
        = Dbl.ofInt (((sensorsOf read sensors).map (fun s => s.temp_min)).foldl min 100000)
    ∧ (transArgs (localsOf read sensors)).max
        = Dbl.fin (((((sensorsOf read sensors).map (fun s => s.temp_max)).foldl min 100000 : Int)
            : ℚ) / 1000) := by
  have h0 : Locals.init.min = Dbl.ofInt 100000 := by simp [Locals.init, Dbl.ofInt]
  have h1 : Locals.init.max = Dbl.ofInt 100000 := by simp [Locals.init, Dbl.ofInt]
  obtain ⟨hmin, hmax⟩ := sensorLoop_min_max read sensors 0 Locals.init 100000 100000 h0 h1
  constructor
  · exact hmin
  · simp only [transArgs, localsOf]
    rw [hmax, Dbl.ofInt, Dbl.div_fin _ _ (by norm_num)]
    rfl

theorem transArgs_long (read : Nat → Int) (sensors : List sensor_s)
    (hn : 2 ≤ (pooledSamples (sensorsOf read sensors)).length)
    (hno : noOverflow (pooledSamples (sensorsOf read sensors)) = true) :
    (transArgs (localsOf read sensors)).temp
        = Dbl.fin (specIntercept (pooledSamples (sensorsOf read sensors)) / 1000)
    ∧ (transArgs (localsOf read sensors)).temp_out
        = Dbl.fin (specPredicted (pooledSamples (sensorsOf read sensors))) := by
  have hs := Sums_localsOf read sensors hno
  have hd := ne_of_gt (spec_denominator_pos _ hn)
  have hk : ((pooledSamples (sensorsOf read sensors)).length : ℚ) ≠ 0 := by
    have : (2 : ℚ) ≤ ((pooledSamples (sensorsOf read sensors)).length : ℚ) := by
      exact_mod_cast hn
    linarith
  constructor
  · simp only [transArgs]
    rw [intercept_of_Sums _ _ _ _ _ _ hs hk hd, Dbl.div_fin _ _ (by norm_num)]
    rfl
  · simp only [transArgs]
    rw [predicted_of_Sums _ _ _ _ _ _ hs hk hd]
    rfl

/-- C6: with `P` the pooled samples (for each sensor in list order, the entries of
its history after this event's shift, from index 0 up to its first zero entry),
numbered 0, 1, ... by one counter, and provided the `int` products of the loop
do not overflow: the locals `n`, `sx`, `sxx`, `sy`, `sxy` of `monitor_event` are
the count and the sums Sx, Sxx, Sy, Sxy of `P`; for n >= 2 the transition
function receives exactly (b/1000, y, min, max/1000) with m, b, y the slope,
intercept and predicted value of the specification's formulas, `min` not
rescaled, and the result of `monitor_event` is the table scan on these four
values; for n <= 1 the quotient is 0/0 and both b/1000 and y are NaN. -/
theorem C6_trend_is_pooled_least_squares (read : Nat → Int) (ok : Bool) (g : globalstate_t)
    (event : Int) (P : List Int) (hP : P = pooledSamples (sensorsOf read g.sensors))
    (hno : noOverflow P = true) :
    Sums (localsOf read g.sensors) P.length (specSx P) (specSxx P) (specSy P) (specSxy P)
    ∧ (2 ≤ P.length →
        transArgs (localsOf read g.sensors)
          = { temp := Dbl.fin (specIntercept P / 1000)
              temp_out := Dbl.fin (specPredicted P)
              min := Dbl.ofInt
                (((sensorsOf read g.sensors).map (fun s => s.temp_min)).foldl min 100000)
              max := Dbl.fin
                (((((sensorsOf read g.sensors).map (fun s => s.temp_max)).foldl min 100000 : Int)
                  : ℚ) / 1000) }
        ∧ monitor_event read ok g event
          = { gact :=
                { speed := (scan ok g.speed event (Dbl.fin (specIntercept P / 1000))
                    (Dbl.fin (specPredicted P))
                    (Dbl.ofInt
                      (((sensorsOf read g.sensors).map (fun s => s.temp_min)).foldl min 100000))
                    (Dbl.fin
                      (((((sensorsOf read g.sensors).map (fun s => s.temp_max)).foldl min
                        100000 : Int) : ℚ) / 1000)) trans).speed
                  sensors := sensorsOf read g.sensors }
              calls := (scan ok g.speed event (Dbl.fin (specIntercept P / 1000))
                    (Dbl.fin (specPredicted P))
                    (Dbl.ofInt
                      (((sensorsOf read g.sensors).map (fun s => s.temp_min)).foldl min 100000))
                    (Dbl.fin
                      (((((sensorsOf read g.sensors).map (fun s => s.temp_max)).foldl min
                        100000 : Int) : ℚ) / 1000)) trans).calls
              written := (scan ok g.speed event (Dbl.fin (specIntercept P / 1000))
                    (Dbl.fin (specPredicted P))
                    (Dbl.ofInt
                      (((sensorsOf read g.sensors).map (fun s => s.temp_min)).foldl min 100000))
                    (Dbl.fin
                      (((((sensorsOf read g.sensors).map (fun s => s.temp_max)).foldl min
                        100000 : Int) : ℚ) / 1000)) trans).written
              errors := (scan ok g.speed event (Dbl.fin (specIntercept P / 1000))
                    (Dbl.fin (specPredicted P))
                    (Dbl.ofInt
                      (((sensorsOf read g.sensors).map (fun s => s.temp_min)).foldl min 100000))
                    (Dbl.fin
                      (((((sensorsOf read g.sensors).map (fun s => s.temp_max)).foldl min
                        100000 : Int) : ℚ) / 1000)) trans).errors })
    ∧ (P.length ≤ 1 →
        (transArgs (localsOf read g.sensors)).temp = Dbl.nan
        ∧ (transArgs (localsOf read g.sensors)).temp_out = Dbl.nan) := by
  subst hP
  refine ⟨Sums_localsOf read g.sensors hno, fun hn => ?_, fun hn => transArgs_short read _ hn⟩
  obtain ⟨h1, h2⟩ := transArgs_long read g.sensors hn hno
  obtain ⟨h3, h4⟩ := transArgs_min_max read g.sensors
  have hargs : transArgs (localsOf read g.sensors)
      = { temp := Dbl.fin (specIntercept (pooledSamples (sensorsOf read g.sensors)) / 1000)
          temp_out := Dbl.fin (specPredicted (pooledSamples (sensorsOf read g.sensors)))
          min := Dbl.ofInt
            (((sensorsOf read g.sensors).map (fun s => s.temp_min)).foldl min 100000)
          max := Dbl.fin
            (((((sensorsOf read g.sensors).map (fun s => s.temp_max)).foldl min 100000 : Int)
              : ℚ) / 1000) } := by
    rw [← h1, ← h2, ← h3, ← h4]
  refine ⟨hargs, ?_⟩
  have hdef : monitor_event read ok g event
      = { gact := { speed := (scan ok g.speed event (transArgs (localsOf read g.sensors)).temp
                      (transArgs (localsOf read g.sensors)).temp_out
                      (transArgs (localsOf read g.sensors)).min
                      (transArgs (localsOf read g.sensors)).max trans).speed
                    sensors := sensorsOf read g.sensors }
          calls := (scan ok g.speed event (transArgs (localsOf read g.sensors)).temp
                      (transArgs (localsOf read g.sensors)).temp_out
                      (transArgs (localsOf read g.sensors)).min
                      (transArgs (localsOf read g.sensors)).max trans).calls
          written := (scan ok g.speed event (transArgs (localsOf read g.sensors)).temp
                      (transArgs (localsOf read g.sensors)).temp_out
                      (transArgs (localsOf read g.sensors)).min
                      (transArgs (localsOf read g.sensors)).max trans).written
          errors := (scan ok g.speed event (transArgs (localsOf read g.sensors)).temp
                      (transArgs (localsOf read g.sensors)).temp_out
                      (transArgs (localsOf read g.sensors)).min
                      (transArgs (localsOf read g.sensors)).max trans).errors } := rfl
  rw [hdef, h1, h2, h3, h4]

/-- C6, at a concrete input: the START event of the end-to-end scenario, whose
pooled samples are 40000 (sensor A) and 35000 (sensor B). -/
theorem C6_trend_is_pooled_least_squares_witness :
    Sums (localsOf (scenarioRead 0) scenarioInit.sensors) 2 (specSx [40000, 35000])
      (specSxx [40000, 35000]) (specSy [40000, 35000]) (specSxy [40000, 35000])
    ∧ (transArgs (localsOf (scenarioRead 0) scenarioInit.sensors)).temp
        = Dbl.fin (specIntercept [40000, 35000] / 1000)
    ∧ (transArgs (localsOf (scenarioRead 0) scenarioInit.sensors)).temp_out
        = Dbl.fin (specPredicted [40000, 35000]) :=
  ⟨(C6_trend_is_pooled_least_squares (scenarioRead 0) true scenarioInit EV_START
      [40000, 35000] (by decide!) (by decide!)).1,
   congrArg TransArgs.temp
    ((C6_trend_is_pooled_least_squares (scenarioRead 0) true scenarioInit EV_START
      [40000, 35000] (by decide!) (by decide!)).2.1 (by decide)).1,
   congrArg TransArgs.temp_out
    ((C6_trend_is_pooled_least_squares (scenarioRead 0) true scenarioInit EV_START
      [40000, 35000] (by decide!) (by decide!)).2.1 (by decide)).1⟩

theorem validSamples_updateSensor_zero (s : sensor_s) :
    validSamples (updateSensor s 0).temp = [] := by
  simp only [updateSensor]
  cases h : shiftLoop (__DATALEN - 1) s.temp with
  | nil => rfl
  | cons x xs => simp [validSamples, __DATALEN]

theorem pooledSamples_all_zero (read : Nat → Int) (sensors : List sensor_s)
    (h : ∀ i, i < sensors.length → read i = 0) :
    pooledSamples (sensorsOf read sensors) = [] := by
  simp only [pooledSamples, List.flatMap_eq_nil_iff]
  intro s' hs'
  obtain ⟨k, hk, rfl⟩ := List.mem_iff_getElem.mp hs'
  have h1 := sensorsOf_getElem? read sensors k
  rw [List.getElem?_eq_getElem hk] at h1
  cases hs : sensors[k]? with
  | none => rw [hs] at h1; cases h1
  | some s =>
    rw [hs] at h1
    simp only [Option.map_some', Option.some.injEq] at h1
    have hk2 : k < sensors.length := by
      by_contra hc
      rw [List.getElem?_eq_none (by omega)] at hs
      cases hs
    rw [h1, h k hk2]
    exact validSamples_updateSensor_zero s

/-- C7: on a TIMER tick with at most one pooled sample (n = 0 or n = 1) the
regression quotient is 0/0, and from AUTO, HIGHSPEED or FULLSPEED the fan speed
after `monitor_event` equals the speed before it and `sys_fan` is not called
(nothing is written), whatever the sample and the limits; in particular this
holds when the reading of every sensor is zero. -/
theorem C7_undefined_regression_keeps_state (read : Nat → Int) (ok : Bool) (g : globalstate_t)
    (hs : g.speed ∈ [FAN_AUTO, FAN_HIGHSPEED, FAN_FULLSPEED]) :
    ((pooledSamples (sensorsOf read g.sensors)).length ≤ 1 →
        (monitor_event read ok g EV_TIMER).gact.speed = g.speed
        ∧ (monitor_event read ok g EV_TIMER).calls = []
        ∧ (monitor_event read ok g EV_TIMER).written = [])
    ∧ ((∀ i, i < g.sensors.length → read i = 0) →
        (pooledSamples (sensorsOf read g.sensors)).length = 0
        ∧ (monitor_event read ok g EV_TIMER).gact.speed = g.speed
        ∧ (monitor_event read ok g EV_TIMER).calls = []
        ∧ (monitor_event read ok g EV_TIMER).written = []) := by
  have main : (pooledSamples (sensorsOf read g.sensors)).length ≤ 1 →
      (monitor_event read ok g EV_TIMER).gact.speed = g.speed
      ∧ (monitor_event read ok g EV_TIMER).calls = []
      ∧ (monitor_event read ok g EV_TIMER).written = [] := by
    intro hn
    obtain ⟨h1, h2⟩ := transArgs_short read g.sensors hn
    rw [monitor_event_speed, monitor_event_calls, monitor_event_written, h1, h2]
    simp only [List.mem_cons, List.mem_singleton, List.not_mem_nil, or_false] at hs
    rcases hs with h | h | h
    · rw [h, scan_trans_timer_auto, applyRow_speed, applyRow_calls, applyRow_written]
      simp [_auto, Dbl.nan_lt, Dbl.lt_nan, Dbl.gt]
    · rw [h, scan_trans_timer_highspeed, applyRow_speed, applyRow_calls, applyRow_written]
      simp [_highspeed, Dbl.nan_lt, Dbl.lt_nan, Dbl.gt]
    · rw [h, scan_trans_timer_fullspeed, applyRow_speed, applyRow_calls, applyRow_written]
      simp [_fullspeed, Dbl.nan_lt, Dbl.lt_nan, Dbl.gt]
  refine ⟨main, fun hz => ?_⟩
  have h0 := pooledSamples_all_zero read g.sensors hz
  have hl : (pooledSamples (sensorsOf read g.sensors)).length = 0 := by rw [h0]; rfl
  exact ⟨hl, main (by omega)⟩

/-- C7, at concrete inputs: in state HIGHSPEED, one fresh sensor reading 95000
(one pooled sample, n = 1), and two fresh sensors both reading 0 (n = 0). -/
theorem C7_undefined_regression_keeps_state_witness :
    ((monitor_event (fun _ => 95000) true
          { speed := FAN_HIGHSPEED, sensors := [scenarioSensor] } EV_TIMER).gact.speed
        = FAN_HIGHSPEED
      ∧ (monitor_event (fun _ => 95000) true
          { speed := FAN_HIGHSPEED, sensors := [scenarioSensor] } EV_TIMER).calls = []
      ∧ (monitor_event (fun _ => 95000) true
          { speed := FAN_HIGHSPEED, sensors := [scenarioSensor] } EV_TIMER).written = [])
    ∧ ((pooledSamples (sensorsOf (fun _ => 0) [scenarioSensor, scenarioSensor])).length = 0
      ∧ (monitor_event (fun _ => 0) true
          { speed := FAN_HIGHSPEED, sensors := [scenarioSensor, scenarioSensor] }
          EV_TIMER).gact.speed = FAN_HIGHSPEED
      ∧ (monitor_event (fun _ => 0) true
          { speed := FAN_HIGHSPEED, sensors := [scenarioSensor, scenarioSensor] }
          EV_TIMER).calls = []
      ∧ (monitor_event (fun _ => 0) true
          { speed := FAN_HIGHSPEED, sensors := [scenarioSensor, scenarioSensor] }
          EV_TIMER).written = []) :=
  ⟨(C7_undefined_regression_keeps_state (fun _ => 95000) true
      { speed := FAN_HIGHSPEED, sensors := [scenarioSensor] } (by decide)).1 (by decide!),
   (C7_undefined_regression_keeps_state (fun _ => 0) true
      { speed := FAN_HIGHSPEED, sensors := [scenarioSensor, scenarioSensor] } (by decide)).2
      (fun _ _ => rfl)⟩

/-! ## A rising trend -/

theorem sumFrom_y_shift (P : List Int) :
    ∀ k j : Nat, sumFrom (fun _ y => y) k P = sumFrom (fun _ y => y) j P := by
  induction P with
  | nil => intro k j; simp [sumFrom_nil]
  | cons t P ih => intro k j; rw [sumFrom_cons, sumFrom_cons, ih (k + 1) (j + 1)]

theorem sumFrom_xy_succ (P : List Int) :
    ∀ k : Nat, sumFrom (fun x y => x * y) (k + 1) P
      = sumFrom (fun x y => x * y) k P + sumFrom (fun _ y => y) k P := by
  induction P with
  | nil => intro k; simp [sumFrom_nil]
  | cons t P ih =>
    intro k
    rw [sumFrom_cons, sumFrom_cons, sumFrom_cons, ih (k + 1)]
    push_cast
    ring

theorem sumFrom_x_succ (P : List Int) (k : Nat) :
    sumFrom (fun x _ => x) (k + 1) P = sumFrom (fun x _ => x) k P + (P.length : ℚ) := by
  rw [sumFrom_index, sumFrom_index]
  push_cast
  ring

theorem sumFrom_x_nonneg (P : List Int) : ∀ k : Nat, 0 ≤ sumFrom (fun x _ => x) k P := by
  induction P with
  | nil => intro k; simp [sumFrom_nil]
  | cons t P ih =>
    intro k
    rw [sumFrom_cons]
    have := ih (k + 1)
    have hk : (0 : ℚ) ≤ (k : ℚ) := Nat.cast_nonneg k
    linarith

theorem sumFrom_y_le (t : ℚ) (P : List Int) (h : ∀ y ∈ P, (y : ℚ) ≤ t) :
    ∀ k : Nat, sumFrom (fun _ y => y) k P ≤ (P.length : ℚ) * t := by
  induction P with
  | nil => intro k; simp [sumFrom_nil]
  | cons u P ih =>
    intro k
    rw [sumFrom_cons, List.length_cons]
    have h1 := ih (fun y hy => h y (List.mem_cons_of_mem _ hy)) (k + 1)
    have h2 := h u (List.mem_cons_self _ _)
    push_cast
    linarith

theorem sumFrom_y_ge (g : ℚ) (P : List Int) (h : ∀ y ∈ P, g ≤ (y : ℚ)) :
    ∀ k : Nat, (P.length : ℚ) * g ≤ sumFrom (fun _ y => y) k P := by
  induction P with
  | nil => intro k; simp [sumFrom_nil]
  | cons u P ih =>
    intro k
    rw [sumFrom_cons, List.length_cons]
    have h1 := ih (fun y hy => h y (List.mem_cons_of_mem _ hy)) (k + 1)
    have h2 := h u (List.mem_cons_self _ _)
    push_cast
    linarith

theorem sumFrom_xy_le (t : ℚ) (P : List Int) (h : ∀ y ∈ P, (y : ℚ) ≤ t) :
    ∀ k : Nat, sumFrom (fun x y => x * y) k P ≤ sumFrom (fun x _ => x) k P * t := by
  induction P with
  | nil => intro k; simp [sumFrom_nil]
  | cons u P ih =>
    intro k
    rw [sumFrom_cons, sumFrom_cons]
    have h1 := ih (fun y hy => h y (List.mem_cons_of_mem _ hy)) (k + 1)
    have h2 := h u (List.mem_cons_self _ _)
    have hk : (0 : ℚ) ≤ (k : ℚ) := Nat.cast_nonneg k
    have h3 : (k : ℚ) * (u : ℚ) ≤ (k : ℚ) * t := mul_le_mul_of_nonneg_left h2 hk
    linarith

/-- Chebyshev's sum inequality for the sample numbers against non-increasing
readings. -/
theorem spec_covariance_nonpos (P : List Int) (h : P.Pairwise (fun a b => b ≤ a)) :
    (P.length : ℚ) * specSxy P ≤ specSx P * specSy P := by
  induction P with
  | nil => simp [specSxy, specSx, specSy, sumFrom_nil]
  | cons t Q ih =>
    obtain ⟨hle, hQ⟩ := List.pairwise_cons.mp h
    have hle2 : ∀ y ∈ Q, (y : ℚ) ≤ (t : ℚ) := fun y hy => by exact_mod_cast hle y hy
    have ih2 := ih hQ
    have hA := sumFrom_xy_le (t : ℚ) Q hle2 0
    have hB := sumFrom_y_le (t : ℚ) Q hle2 0
    simp only [specSxy, specSx, specSy] at ih2 ⊢
    rw [sumFrom_cons, sumFrom_cons, sumFrom_cons, sumFrom_xy_succ, sumFrom_x_succ,
      sumFrom_y_shift Q (0 + 1) 0, List.length_cons]
    push_cast
    nlinarith [ih2, hA, hB]

theorem spec_trend_ge (P : List Int) (hn : 2 ≤ P.length) (h : P.Pairwise (fun a b => b ≤ a))
    (g : ℚ) (hg : ∀ y ∈ P, g ≤ (y : ℚ)) :
    g ≤ specIntercept P ∧ specIntercept P ≤ specPredicted P := by
  have h2 : (2 : ℚ) ≤ (P.length : ℚ) := by exact_mod_cast hn
  have hpos : (0 : ℚ) < (P.length : ℚ) := by linarith
  have hD := spec_denominator_pos P hn
  have hC := spec_covariance_nonpos P h
  have hN : specSxy P - specSx P * specSy P / (P.length : ℚ) ≤ 0 := by
    have : specSx P * specSy P / (P.length : ℚ) ≥ specSxy P := by
      rw [ge_iff_le, le_div_iff₀ hpos]
      linarith
    linarith
  have hm : specSlope P ≤ 0 := div_nonpos_of_nonpos_of_nonneg hN (le_of_lt hD)
  have hSx : 0 ≤ specSx P := sumFrom_x_nonneg P 0
  have hSy := sumFrom_y_ge g P hg 0
  have hmSx : specSlope P * specSx P ≤ 0 := mul_nonpos_of_nonpos_of_nonneg hm hSx
  constructor
  · rw [specIntercept, le_div_iff₀ hpos]
    simp only [specSy]
    linarith
  · rw [specPredicted]
    have : 0 ≤ specSlope P * (-2 * (P.length : ℚ)) := by
      have h3 : -2 * (P.length : ℚ) ≤ 0 := by linarith
      exact mul_nonneg_of_nonpos_of_nonpos hm h3
    linarith

theorem predicted_not_below_min (read : Nat → Int) (sensors : List sensor_s)
    (hn : 2 ≤ (pooledSamples (sensorsOf read sensors)).length)
    (hno : noOverflow (pooledSamples (sensorsOf read sensors)) = true)
    (hsorted : (pooledSamples (sensorsOf read sensors)).Pairwise (fun a b => b ≤ a))
    (hmin : ∀ t ∈ pooledSamples (sensorsOf read sensors),
      Dbl.le (transArgs (localsOf read sensors)).min (Dbl.ofInt t) = true) :
    Dbl.lt (transArgs (localsOf read sensors)).temp_out (transArgs (localsOf read sensors)).min
      = false := by
  obtain ⟨-, h2⟩ := transArgs_long read sensors hn hno
  obtain ⟨h3, -⟩ := transArgs_min_max read sensors
  rw [h3] at hmin
  rw [h2, h3]
  have hg : ∀ y ∈ pooledSamples (sensorsOf read sensors),
      ((((sensorsOf read sensors).map (fun s => s.temp_min)).foldl min 100000 : Int) : ℚ)
        ≤ (y : ℚ) := by
    intro y hy
    have := hmin y hy
    simpa [Dbl.le, Dbl.ofInt] using this
  obtain ⟨k1, k2⟩ := spec_trend_ge _ hn hsorted _ hg
  have : ¬ (specPredicted (pooledSamples (sensorsOf read sensors))
      < ((((sensorsOf read sensors).map (fun s => s.temp_min)).foldl min 100000 : Int) : ℚ)) :=
    not_lt.mpr (le_trans k1 k2)
  simp [Dbl.lt, Dbl.ofInt, this]

theorem scenario_start : scenarioRun 0 = scenarioState 0 FAN_AUTO := by decide!

theorem scenario_step : ∀ k, k < 35 →
    monitor_event (scenarioRead (k + 1)) true (scenarioState k FAN_AUTO) EV_TIMER
        = { gact := scenarioState (k + 1) FAN_AUTO, calls := [], written := [], errors := [] }
    ∧ Dbl.gt (transArgs (localsOf (scenarioRead (k + 1)) (scenarioState k FAN_AUTO).sensors)).temp
        (Dbl.fin 70) = false := by
  decide!

theorem scenario_last :
    monitor_event (scenarioRead 36) true (scenarioState 35 FAN_AUTO) EV_TIMER
        = { gact := scenarioState 36 FAN_HIGHSPEED, calls := [FAN_HIGHSPEED],
            written := ["level 7"], errors := [] }
    ∧ Dbl.gt (transArgs (localsOf (scenarioRead 36) (scenarioState 35 FAN_AUTO).sensors)).temp
        (Dbl.fin 70) = true := by
  decide!

theorem scenario_run : ∀ k, k ≤ 35 → scenarioRun k = scenarioState k FAN_AUTO := by
  intro k
  induction k with
  | zero => intro _; exact scenario_start
  | succ k ih =>
    intro hk
    rw [scenarioRun, ih (by omega), (scenario_step k (by omega)).1]

/-- C8: in state AUTO, when the pooled samples (n >= 2, no `int` overflow) are
non-increasing in index order, the computed minimum is at most every pooled
sample and b/1000 > max/1000 - 20, `monitor_event (EV_TIMER)` gives HIGHSPEED
and calls `sys_fan` exactly once, with the command "level 7".  In the
end-to-end scenario (sensor A reading 40000 + 1000 k on event k, sensor B
35000, maximum 90000 for both) the state is AUTO after START and after each of
the first 35 ticks, on which b/1000 <= 70 and nothing is written; on tick 36
b/1000 > 70 for the first time, the state becomes HIGHSPEED and "level 7" is
written. -/
theorem C8_single_step_escalation :
    (∀ (read : Nat → Int) (ok : Bool) (g : globalstate_t) (P : List Int),
        g.speed = FAN_AUTO →
        P = pooledSamples (sensorsOf read g.sensors) →
        2 ≤ P.length →
        noOverflow P = true →
        P.Pairwise (fun a b => b ≤ a) →
        (∀ t ∈ P, Dbl.le (transArgs (localsOf read g.sensors)).min (Dbl.ofInt t) = true) →
        Dbl.gt (transArgs (localsOf read g.sensors)).temp
          (Dbl.sub (transArgs (localsOf read g.sensors)).max (Dbl.fin 20)) = true →
        (monitor_event read ok g EV_TIMER).gact.speed = FAN_HIGHSPEED
        ∧ (monitor_event read ok g EV_TIMER).calls = [FAN_HIGHSPEED]
        ∧ (monitor_event read ok g EV_TIMER).calls.map fanCommand = [some "level 7"]
        ∧ (monitor_event read ok g EV_TIMER).written = if ok = true then ["level 7"] else [])
    ∧ (∀ k, k ≤ 35 → (scenarioRun k).speed = FAN_AUTO)
    ∧ (∀ k, k < 35 →
        Dbl.gt (scenarioCurrent k) (Dbl.fin 70) = false
        ∧ (monitor_event (scenarioRead (k + 1)) true (scenarioRun k) EV_TIMER).written = [])
    ∧ Dbl.gt (scenarioCurrent 35) (Dbl.fin 70) = true
    ∧ (scenarioRun 36).speed = FAN_HIGHSPEED
    ∧ (monitor_event (scenarioRead 36) true (scenarioRun 35) EV_TIMER).written = ["level 7"] := by
  refine ⟨?_, ?_, ?_, ?_, ?_, ?_⟩
  · intro read ok g P hs hP hn hno hsorted hmin hgt
    subst hP
    have hlt := predicted_not_below_min read g.sensors hn hno hsorted hmin
    have hfn : _auto (transArgs (localsOf read g.sensors)).temp
        (transArgs (localsOf read g.sensors)).temp_out (transArgs (localsOf read g.sensors)).min
        (transArgs (localsOf read g.sensors)).max = FAN_HIGHSPEED := by
      simp [_auto, hlt, hgt]
    have hne : FAN_HIGHSPEED ≠ FAN_AUTO := by decide
    rw [monitor_event_speed, monitor_event_calls, monitor_event_written, hs,
      scan_trans_timer_auto, applyRow_speed, applyRow_calls, applyRow_written]
    simp only [hfn]
    refine ⟨trivial, ?_, ?_, ?_⟩
    · simp [hne]
    · simp [hne, fanCommand, FAN_HIGHSPEED, FAN_AUTO]
    · cases ok <;> simp [hne, sys_fan, fanCommand, FAN_HIGHSPEED, FAN_AUTO]
  · intro k hk
    rw [scenario_run k hk]
    rfl
  · intro k hk
    rw [scenarioCurrent, scenario_run k (by omega), (scenario_step k hk).1]
    exact ⟨(scenario_step k hk).2, rfl⟩
  · rw [scenarioCurrent, scenario_run 35 (by omega)]
    exact scenario_last.2
  · rw [scenarioRun, scenario_run 35 (by omega), scenario_last.1]
    rfl
  · rw [scenario_run 35 (by omega), scenario_last.1]

/-- C8, at a concrete input: tick 36 of the end-to-end scenario. -/
theorem C8_single_step_escalation_witness :
    (monitor_event (scenarioRead 36) true (scenarioState 35 FAN_AUTO) EV_TIMER).gact.speed
        = FAN_HIGHSPEED
    ∧ (monitor_event (scenarioRead 36) true (scenarioState 35 FAN_AUTO) EV_TIMER).calls
        = [FAN_HIGHSPEED]
    ∧ (monitor_event (scenarioRead 36) true (scenarioState 35 FAN_AUTO) EV_TIMER).calls.map
        fanCommand = [some "level 7"]
    ∧ (monitor_event (scenarioRead 36) true (scenarioState 35 FAN_AUTO) EV_TIMER).written
        = if true = true then ["level 7"] else [] :=
  C8_single_step_escalation.1 (scenarioRead 36) true (scenarioState 35 FAN_AUTO)
    (pooledSamples (sensorsOf (scenarioRead 36) (scenarioState 35 FAN_AUTO).sensors))
    rfl rfl (by decide!) (by decide!) (by decide!) (by decide!) (by decide!)

end TpFancontrol
